import Mathlib

/-!
Verification development for the StockAnalyzer repository.

This file shallowly embeds the core decision logic of the repository in Lean 4
and proves properties of the embedding.  Machine floats are modelled by the
rationals; a pandas DataFrame is modelled by a record of optional columns
(a column is either absent or a list of rationals); Python exceptions
(KeyError on a direct column access) are modelled by the Except monad.

Embedded source files:
  src/backtest_engine.py  (class BacktestEngine: run, optimize, report)
  src/analysis_engine.py  (class TechnicalAnalyzer: trend/trigger scoring,
    scenario classification, divergence detection, k-line patterns,
    morphology, price-volume analysis, chip factors, action plan)
-/

namespace SA

/-! ## Generic helpers (Python list semantics) -/

/-- Python style list indexing with a negative index meaning from the end.
Out-of-range access returns the supplied default; every use in this file is
guarded by a length check mirroring the guard in the Python source. -/
def pyGetD {α : Type} (l : List α) (i : Int) (d : α) : α :=
  if i < 0 then l.getD (l.length - (-i).toNat) d else l.getD i.toNat d

/-- Python slice l[-k:]: the last k elements (all of l when k exceeds the
length). -/
def lastK {α : Type} (l : List α) (k : ℕ) : List α :=
  l.drop (l.length - k)

/-- Python slice l[:k]. -/
def firstK {α : Type} (l : List α) (k : ℕ) : List α :=
  l.take k

/-- Python slice l[a:b] (0 ≤ a ≤ b). -/
def pySlice {α : Type} (l : List α) (a b : ℕ) : List α :=
  (l.take b).drop a

/-- Arithmetic mean of a list of rationals (0 for the empty list; the Python
source only takes means of nonempty slices). -/
def listMean (l : List ℚ) : ℚ :=
  l.sum / l.length

/-- pandas Series.rolling(k).mean().iloc[-1]: mean of the last k values.
In pandas the value is NaN when fewer than k rows exist; every use in this
file is behind a length guard that makes the window full. -/
def rollMeanLast (l : List ℚ) (k : ℕ) : ℚ :=
  listMean (lastK l k)

/-- Maximum of a list of rationals with default d for the empty list
(numpy max of the slices used in the source is always over a nonempty
slice). -/
def listMaxD (l : List ℚ) (d : ℚ) : ℚ :=
  l.foldl (fun a x => if x > a then x else a) d

/-- Minimum of a list of rationals with default d for the empty list. -/
def listMinD (l : List ℚ) (d : ℚ) : ℚ :=
  l.foldl (fun a x => if x < a then x else a) d

/-- max(l) over the last k elements, as in df.iloc[-k:].max(). -/
def lastKMax (l : List ℚ) (k : ℕ) : ℚ :=
  match lastK l k with
  | [] => 0
  | x :: xs => listMaxD xs x

/-- min(l) over the last k elements, as in df.iloc[-k:].min(). -/
def lastKMin (l : List ℚ) (k : ℕ) : ℚ :=
  match lastK l k with
  | [] => 0
  | x :: xs => listMinD xs x

/-! ## Backtest engine (src/backtest_engine.py, class BacktestEngine)

The run loop only reads the dates, the Close column and the precomputed
Trigger_Score column, so a bar is modelled by those three fields.  A NaN
score (the bars before the warm-up window) is modelled by none. -/

/-- One daily bar as consumed by BacktestEngine.run. -/
structure BBar where
  date : ℕ
  close : ℚ
  score : Option ℚ
deriving DecidableEq

/-- One trade record, as built by BacktestEngine.run.  Entry fields are set
when the trade dict is created (on a buy); exit fields start as None and
pnl / ret start as 0, exactly as in the source. -/
structure Trade where
  entryDate : ℕ
  entryPrice : ℚ
  shares : ℤ
  cost : ℚ
  exitDate : Option ℕ
  exitPrice : Option ℚ
  pnl : ℚ
  ret : ℚ
deriving DecidableEq

/-- The action recorded on an equity-curve point. -/
inductive BAction where
  | buy
  | sell
deriving DecidableEq

/-- One equity-curve record: date, equity, action taken on that bar. -/
structure EqPoint where
  date : ℕ
  equity : ℚ
  action : Option BAction
deriving DecidableEq

/-- Mutable state of BacktestEngine during run (position, cash, holdings,
trades, equity_curve). -/
structure BTState where
  position : ℕ
  cash : ℚ
  holdings : ℤ
  trades : List Trade
  equity : List EqPoint
deriving DecidableEq

/-- The state reset performed at the top of run(). -/
def initState (initialCapital : ℚ) : BTState :=
  ⟨0, initialCapital, 0, [], []⟩

/-- Map f over the last element of a list (used for
self.trades[-1][...] = ... in the sell branch). -/
def mapLast {α : Type} (f : α → α) : List α → List α
  | [] => []
  | [t] => [f t]
  | t :: ts => t :: mapLast f ts

/-- The net proceeds of the sell branch: revenue minus fee minus tax. -/
def sellNet (feeRate taxRate : ℚ) (s : BTState) (b : BBar) : ℚ :=
  let revenue := (s.holdings : ℚ) * b.close
  revenue - revenue * feeRate - revenue * taxRate

/-- The sell branch of the run() loop: liquidate the whole holding at the
close, credit the net proceeds, and write the exit fields of the last
trade. -/
def sellResult (feeRate taxRate : ℚ) (s : BTState) (b : BBar) : BTState :=
  let net := sellNet feeRate taxRate s b
  { s with cash := s.cash + net,
           trades := mapLast (fun t =>
             { t with exitDate := some b.date, exitPrice := some b.close,
                      pnl := net - t.cost, ret := (net - t.cost) / t.cost * 100 }) s.trades,
           holdings := 0, position := 0 }

/-- The share count of the buy branch: int(max_cost // price) with
max_cost = cash / (1 + fee_rate). -/
def buyShares (feeRate : ℚ) (s : BTState) (b : BBar) : ℤ :=
  ((s.cash / (1 + feeRate)) / b.close).floor

/-- The buy branch of the run() loop: spend shares * price plus the entry
fee and append a fresh open trade record. -/
def buyResult (feeRate : ℚ) (s : BTState) (b : BBar) : BTState :=
  let shares := buyShares feeRate s b
  let cost := (shares : ℚ) * b.close
  let fee := cost * feeRate
  { s with cash := s.cash - (cost + fee), holdings := shares, position := 1,
           trades := s.trades ++ [⟨b.date, b.close, shares, cost + fee, none, none, 0, 0⟩] }

/-- The decision part of one run() iteration: sell only when holding and
score ≤ sell_threshold, buy only when flat, score ≥ buy_threshold and the
computed share count is positive.  Returns the updated state and the
recorded action. -/
def btDecide (feeRate taxRate buyTh sellTh : ℚ) (s : BTState) (b : BBar) (score : ℚ) :
    BTState × Option BAction :=
  if s.position > 0 then
    if score ≤ sellTh then (sellResult feeRate taxRate s b, some BAction.sell)
    else (s, none)
  else if s.position = 0 then
    if score ≥ buyTh then
      if buyShares feeRate s b > 0 then (buyResult feeRate s b, some BAction.buy)
      else (s, none)
    else (s, none)
  else (s, none)

/-- One iteration of the run() loop of BacktestEngine for a single bar.
A NaN score means continue: the bar is skipped entirely (no trade, no
equity record).  Otherwise the decision runs and an equity point is
appended with the updated cash and holdings. -/
def btStep (feeRate taxRate buyTh sellTh : ℚ) (s : BTState) (b : BBar) : BTState :=
  match b.score with
  | none => s
  | some score =>
    let r := btDecide feeRate taxRate buyTh sellTh s b score
    { r.1 with equity := r.1.equity ++
        [⟨b.date, r.1.cash + (r.1.holdings : ℚ) * b.close, r.2⟩] }

/-- BacktestEngine.run: reset the state and fold the per-bar step over the
bar list. -/
def btRun (initialCapital feeRate taxRate buyTh sellTh : ℚ) (bars : List BBar) : BTState :=
  bars.foldl (btStep feeRate taxRate buyTh sellTh) (initState initialCapital)

/-- All intermediate states of a run (state before each bar plus the final
state); used to express invariants that hold at every bar. -/
def btTrace (initialCapital feeRate taxRate buyTh sellTh : ℚ) (bars : List BBar) :
    List BTState :=
  bars.scanl (btStep feeRate taxRate buyTh sellTh) (initState initialCapital)

/-- equity_curve[-1].equity; only read when the trade list is nonempty, in
which case the equity list is provably nonempty. -/
def lastEquity (initialCapital : ℚ) (s : BTState) : ℚ :=
  match s.equity.getLast? with
  | some e => e.equity
  | none => initialCapital

/-- total_return of _generate_report: 0 when no trade happened (early
return of the report), else the percentage gain of the final equity over
the initial capital. -/
def totalReturn (initialCapital : ℚ) (s : BTState) : ℚ :=
  if s.trades = [] then 0
  else (lastEquity initialCapital s - initialCapital) / initialCapital * 100

/-- The holding flag of _generate_report. -/
def btHolding (s : BTState) : Prop := s.position = 1

/-- The buy-threshold search space of optimize(). -/
def buyThresholds : List ℚ := [1, 2, 3, 4, 5]

/-- The sell-threshold search space of optimize(). -/
def sellThresholds : List ℚ := [-1, -2, -3, -4]

/-- The grid of (buy, sell) pairs in the iteration order of the two nested
loops of optimize(). -/
def gridPairs : List (ℚ × ℚ) :=
  buyThresholds.flatMap (fun b => sellThresholds.map (fun s => (b, s)))

/-- Generic best-so-far fold of optimize(): acc is (best_params, best_ret),
updated only on a strictly larger value of f. -/
def selBest {α : Type} (f : α → ℚ) (acc : Option α × ℚ) (l : List α) : Option α × ℚ :=
  l.foldl (fun a x => if f x > a.2 then (some x, f x) else a) acc

/-- BacktestEngine.optimize: exhaustive grid search, best_ret initialised
to -999 and best_params to the empty dict (modelled none); the kept report
of the best pair is summarised by its total_return, which optimize stores
as best_ret. -/
def btOptimize (initialCapital feeRate taxRate : ℚ) (bars : List BBar) :
    Option (ℚ × ℚ) × ℚ :=
  selBest
    (fun p => totalReturn initialCapital
      (btRun initialCapital feeRate taxRate p.1 p.2 bars))
    (none, -999) gridPairs

/-! ## Backtest invariants -/

/-- Every trade in the list has its exit fields set. -/
def allClosed (l : List Trade) : Prop := ∀ t ∈ l, t.exitDate.isSome

/-- Number of open trades (exit date still None) in a trade list. -/
def openCount (l : List Trade) : ℕ := (l.filter (fun t => t.exitDate.isNone)).length

/-- The state invariant of the run() loop: the position flag is 0 or 1,
cash and holdings are nonnegative, every recorded equity value is
nonnegative, a flat state holds nothing and has only closed trades, and a
long state holds a positive share count with exactly the last trade open. -/
def BTInv (s : BTState) : Prop :=
  s.position ≤ 1 ∧ 0 ≤ s.cash ∧ 0 ≤ s.holdings ∧
  (∀ e ∈ s.equity, 0 ≤ e.equity) ∧
  (s.position = 0 → s.holdings = 0 ∧ allClosed s.trades) ∧
  (s.position = 1 → 0 < s.holdings ∧
    ∃ pre t₀, s.trades = pre ++ [t₀] ∧ allClosed pre ∧ t₀.exitDate = none)

theorem mapLast_append {α : Type} (f : α → α) (pre : List α) (t : α) :
    mapLast f (pre ++ [t]) = pre ++ [f t] := by
  induction pre with
  | nil => rfl
  | cons x xs ih =>
    cases xs with
    | nil => simp [mapLast] at ih ⊢
    | cons y ys => simpa [mapLast] using ih

theorem initState_inv (c : ℚ) (hc : 0 ≤ c) : BTInv (initState c) := by
  refine ⟨by simp [initState], by simpa [initState], by simp [initState],
    by simp [initState], ?_, ?_⟩
  · intro _; exact ⟨rfl, by intro t ht; simp [initState] at ht⟩
  · intro h; simp [initState] at h

theorem sellNet_nonneg (feeRate taxRate : ℚ) (s : BTState) (b : BBar)
    (hfee : 0 ≤ feeRate) (htax : 0 ≤ taxRate) (hft : feeRate + taxRate ≤ 1)
    (hp : 0 < b.close) (hh : 0 ≤ s.holdings) :
    0 ≤ sellNet feeRate taxRate s b := by
  have hrev : 0 ≤ (s.holdings : ℚ) * b.close := by positivity
  have : sellNet feeRate taxRate s b =
      ((s.holdings : ℚ) * b.close) * (1 - feeRate - taxRate) := by
    simp [sellNet]; ring
  rw [this]
  have : 0 ≤ 1 - feeRate - taxRate := by linarith
  positivity

theorem buyResult_cash_nonneg (feeRate : ℚ) (s : BTState) (b : BBar)
    (hfee : 0 ≤ feeRate) (hp : 0 < b.close) :
    0 ≤ (buyResult feeRate s b).cash := by
  have h1 : (0 : ℚ) < 1 + feeRate := by linarith
  have hfl : (buyShares feeRate s b : ℚ) ≤ (s.cash / (1 + feeRate)) / b.close :=
    Int.floor_le _
  have h2 : (buyShares feeRate s b : ℚ) * b.close ≤ s.cash / (1 + feeRate) := by
    calc (buyShares feeRate s b : ℚ) * b.close
        ≤ ((s.cash / (1 + feeRate)) / b.close) * b.close := by
          exact mul_le_mul_of_nonneg_right hfl (le_of_lt hp)
      _ = s.cash / (1 + feeRate) := by field_simp; ring
  have h3 : (buyShares feeRate s b : ℚ) * b.close * (1 + feeRate) ≤ s.cash := by
    have := mul_le_mul_of_nonneg_right h2 (le_of_lt h1)
    calc (buyShares feeRate s b : ℚ) * b.close * (1 + feeRate)
        ≤ (s.cash / (1 + feeRate)) * (1 + feeRate) := this
      _ = s.cash := by field_simp
  have : (buyResult feeRate s b).cash =
      s.cash - (buyShares feeRate s b : ℚ) * b.close * (1 + feeRate) := by
    simp [buyResult]; ring
  rw [this]; linarith

theorem sellResult_fields (feeRate taxRate : ℚ) (s : BTState) (b : BBar) :
    (sellResult feeRate taxRate s b).position = 0 ∧
    (sellResult feeRate taxRate s b).holdings = 0 ∧
    (sellResult feeRate taxRate s b).cash = s.cash + sellNet feeRate taxRate s b ∧
    (sellResult feeRate taxRate s b).equity = s.equity ∧
    (sellResult feeRate taxRate s b).trades = mapLast (fun t =>
      { t with exitDate := some b.date, exitPrice := some b.close,
               pnl := sellNet feeRate taxRate s b - t.cost,
               ret := (sellNet feeRate taxRate s b - t.cost) / t.cost * 100 }) s.trades :=
  ⟨rfl, rfl, rfl, rfl, rfl⟩

theorem buyResult_fields (feeRate : ℚ) (s : BTState) (b : BBar) :
    (buyResult feeRate s b).position = 1 ∧
    (buyResult feeRate s b).holdings = buyShares feeRate s b ∧
    (buyResult feeRate s b).equity = s.equity ∧
    (buyResult feeRate s b).trades = s.trades ++
      [⟨b.date, b.close, buyShares feeRate s b,
        (buyShares feeRate s b : ℚ) * b.close +
          (buyShares feeRate s b : ℚ) * b.close * feeRate, none, none, 0, 0⟩] :=
  ⟨rfl, rfl, rfl, rfl⟩

theorem sellResult_inv (feeRate taxRate : ℚ) (s : BTState) (b : BBar)
    (hfee : 0 ≤ feeRate) (htax : 0 ≤ taxRate) (hft : feeRate + taxRate ≤ 1)
    (hp : 0 < b.close) (h : BTInv s) (hp1 : s.position = 1) :
    BTInv (sellResult feeRate taxRate s b) := by
  obtain ⟨hpos, hcash, hhold, heq, hflat, hlong⟩ := h
  obtain ⟨hh1, pre, t₀, htr, hcl, hop⟩ := hlong hp1
  obtain ⟨f1, f2, f3, f4, f5⟩ := sellResult_fields feeRate taxRate s b
  have hnet := sellNet_nonneg feeRate taxRate s b hfee htax hft hp hhold
  refine ⟨by rw [f1]; omega, by rw [f3]; linarith, by rw [f2], by rw [f4]; exact heq, ?_, ?_⟩
  · intro _
    refine ⟨f2, ?_⟩
    intro t ht
    rw [f5, htr, mapLast_append] at ht
    rcases List.mem_append.1 ht with h | h
    · exact hcl t h
    · simp at h; subst h; simp
  · intro hcon; rw [f1] at hcon; exact absurd hcon (by simp)

theorem buyResult_inv (feeRate : ℚ) (s : BTState) (b : BBar)
    (hfee : 0 ≤ feeRate) (hp : 0 < b.close) (h : BTInv s) (hp0 : s.position = 0)
    (hsh : buyShares feeRate s b > 0) :
    BTInv (buyResult feeRate s b) := by
  obtain ⟨hpos, hcash, hhold, heq, hflat, hlong⟩ := h
  obtain ⟨hh0, hcl0⟩ := hflat hp0
  obtain ⟨f1, f2, f3, f4⟩ := buyResult_fields feeRate s b
  refine ⟨by rw [f1], buyResult_cash_nonneg feeRate s b hfee hp,
    by rw [f2]; omega, by rw [f3]; exact heq, ?_, ?_⟩
  · intro hcon; rw [f1] at hcon; exact absurd hcon (by simp)
  · intro _
    exact ⟨by rw [f2]; omega, s.trades, _, f4, hcl0, rfl⟩

/-- The decision step preserves the invariant, and the recorded action
certifies the position before and after: a buy happens only when flat (and
moves to long), a sell only when long (and moves to flat); no action
leaves the state unchanged. -/
theorem btDecide_inv (feeRate taxRate buyTh sellTh : ℚ) (s : BTState) (b : BBar)
    (score : ℚ)
    (hfee : 0 ≤ feeRate) (htax : 0 ≤ taxRate) (hft : feeRate + taxRate ≤ 1)
    (hp : 0 < b.close) (h : BTInv s) :
    BTInv (btDecide feeRate taxRate buyTh sellTh s b score).1 ∧
    (btDecide feeRate taxRate buyTh sellTh s b score).1.equity = s.equity ∧
    ((btDecide feeRate taxRate buyTh sellTh s b score).2 = some BAction.buy →
      s.position = 0 ∧ (btDecide feeRate taxRate buyTh sellTh s b score).1.position = 1) ∧
    ((btDecide feeRate taxRate buyTh sellTh s b score).2 = some BAction.sell →
      s.position = 1 ∧ (btDecide feeRate taxRate buyTh sellTh s b score).1.position = 0) ∧
    ((btDecide feeRate taxRate buyTh sellTh s b score).2 = none →
      (btDecide feeRate taxRate buyTh sellTh s b score).1 = s) := by
  by_cases h1 : s.position > 0
  · have hp1 : s.position = 1 := by
      obtain ⟨hpos, _⟩ := h; omega
    by_cases h2 : score ≤ sellTh
    · have hd : btDecide feeRate taxRate buyTh sellTh s b score =
          (sellResult feeRate taxRate s b, some BAction.sell) := by
        rw [btDecide, if_pos h1, if_pos h2]
      rw [hd]
      refine ⟨sellResult_inv feeRate taxRate s b hfee htax hft hp h hp1,
        (sellResult_fields feeRate taxRate s b).2.2.2.1, ?_, ?_, ?_⟩
      · intro hcon; simp at hcon
      · intro _; exact ⟨hp1, (sellResult_fields feeRate taxRate s b).1⟩
      · intro hcon; simp at hcon
    · have hd : btDecide feeRate taxRate buyTh sellTh s b score = (s, none) := by
        rw [btDecide, if_pos h1, if_neg h2]
      rw [hd]
      refine ⟨h, rfl, ?_, ?_, fun _ => rfl⟩
      · intro hcon; simp at hcon
      · intro hcon; simp at hcon
  · have hp0 : s.position = 0 := by omega
    by_cases h2 : score ≥ buyTh
    · by_cases h3 : buyShares feeRate s b > 0
      · have hd : btDecide feeRate taxRate buyTh sellTh s b score =
            (buyResult feeRate s b, some BAction.buy) := by
          rw [btDecide, if_neg h1, if_pos hp0, if_pos h2, if_pos h3]
        rw [hd]
        refine ⟨buyResult_inv feeRate s b hfee hp h hp0 h3,
          (buyResult_fields feeRate s b).2.2.1, ?_, ?_, ?_⟩
        · intro _; exact ⟨hp0, (buyResult_fields feeRate s b).1⟩
        · intro hcon; simp at hcon
        · intro hcon; simp at hcon
      · have hd : btDecide feeRate taxRate buyTh sellTh s b score = (s, none) := by
          rw [btDecide, if_neg h1, if_pos hp0, if_pos h2, if_neg h3]
        rw [hd]
        refine ⟨h, rfl, ?_, ?_, fun _ => rfl⟩
        · intro hcon; simp at hcon
        · intro hcon; simp at hcon
    · have hd : btDecide feeRate taxRate buyTh sellTh s b score = (s, none) := by
        rw [btDecide, if_neg h1, if_pos hp0, if_neg h2]
      rw [hd]
      refine ⟨h, rfl, ?_, ?_, fun _ => rfl⟩
      · intro hcon; simp at hcon
      · intro hcon; simp at hcon

/-- The invariant together with the bookkeeping fact that once a trade
exists the equity curve is nonempty. -/
def BTInv2 (s : BTState) : Prop :=
  BTInv s ∧ (s.trades ≠ [] → s.equity ≠ [])

theorem btStep_equity (feeRate taxRate buyTh sellTh : ℚ) (s : BTState) (b : BBar)
    (score : ℚ) (h : b.score = some score) :
    btStep feeRate taxRate buyTh sellTh s b =
      (let r := btDecide feeRate taxRate buyTh sellTh s b score
       { r.1 with equity := r.1.equity ++
          [⟨b.date, r.1.cash + (r.1.holdings : ℚ) * b.close, r.2⟩] }) := by
  rw [btStep, h]

theorem btStep_inv (feeRate taxRate buyTh sellTh : ℚ) (s : BTState) (b : BBar)
    (hfee : 0 ≤ feeRate) (htax : 0 ≤ taxRate) (hft : feeRate + taxRate ≤ 1)
    (hp : 0 < b.close) (h : BTInv2 s) :
    BTInv2 (btStep feeRate taxRate buyTh sellTh s b) := by
  obtain ⟨hinv, hne⟩ := h
  cases hsc : b.score with
  | none => rw [btStep, hsc]; exact ⟨hinv, hne⟩
  | some score =>
    rw [btStep_equity feeRate taxRate buyTh sellTh s b score hsc]
    obtain ⟨rinv, req, _, _, _⟩ :=
      btDecide_inv feeRate taxRate buyTh sellTh s b score hfee htax hft hp hinv
    obtain ⟨r1, r2, r3, r4, r5, r6⟩ := rinv
    constructor
    · refine ⟨r1, r2, r3, ?_, r5, r6⟩
      intro e he
      simp only [List.mem_append, List.mem_singleton] at he
      rcases he with he | he
      · exact r4 e he
      · subst he
        have : (0:ℚ) ≤ ((btDecide feeRate taxRate buyTh sellTh s b score).1.holdings : ℚ) * b.close := by
          have : (0:ℚ) ≤ ((btDecide feeRate taxRate buyTh sellTh s b score).1.holdings : ℚ) := by
            exact_mod_cast r3
          positivity
        dsimp; linarith
    · intro _
      simp

theorem trace_inv (feeRate taxRate buyTh sellTh : ℚ) (bars : List BBar) (s₀ : BTState)
    (hfee : 0 ≤ feeRate) (htax : 0 ≤ taxRate) (hft : feeRate + taxRate ≤ 1)
    (hbars : ∀ b ∈ bars, 0 < b.close) (h₀ : BTInv2 s₀) :
    ∀ x ∈ List.scanl (btStep feeRate taxRate buyTh sellTh) s₀ bars, BTInv2 x := by
  induction bars generalizing s₀ with
  | nil => intro x hx; simp [List.scanl] at hx; subst hx; exact h₀
  | cons b bs ih =>
    intro x hx
    rw [List.scanl_cons] at hx
    rcases List.mem_cons.1 hx with hx | hx
    · subst hx; exact h₀
    · exact ih _ (fun c hc => hbars c (List.mem_cons_of_mem b hc))
        (btStep_inv feeRate taxRate buyTh sellTh s₀ b hfee htax hft
          (hbars b (List.mem_cons_self b bs)) h₀) x hx

theorem foldl_mem_scanl {α β : Type} (f : β → α → β) (l : List α) (s : β) :
    l.foldl f s ∈ List.scanl f s l := by
  induction l generalizing s with
  | nil => simp [List.scanl]
  | cons a as ih =>
    rw [List.foldl_cons, List.scanl_cons]
    exact List.mem_cons_of_mem _ (ih (f s a))

theorem run_inv (initialCapital feeRate taxRate buyTh sellTh : ℚ) (bars : List BBar)
    (hc : 0 ≤ initialCapital)
    (hfee : 0 ≤ feeRate) (htax : 0 ≤ taxRate) (hft : feeRate + taxRate ≤ 1)
    (hbars : ∀ b ∈ bars, 0 < b.close) :
    BTInv2 (btRun initialCapital feeRate taxRate buyTh sellTh bars) := by
  have h₀ : BTInv2 (initState initialCapital) :=
    ⟨initState_inv initialCapital hc, by intro h; exact absurd rfl h⟩
  exact trace_inv feeRate taxRate buyTh sellTh bars (initState initialCapital)
    hfee htax hft hbars h₀ _ (foldl_mem_scanl _ bars _)

/-- Number of open trades equals the position flag under the invariant. -/
theorem openCount_eq_position (s : BTState) (h : BTInv s) :
    openCount s.trades = s.position := by
  obtain ⟨hpos, _, _, _, hflat, hlong⟩ := h
  have hcl0 : ∀ l, allClosed l → openCount l = 0 := by
    intro l hl
    rw [openCount, List.length_eq_zero]
    rw [List.filter_eq_nil]
    intro t ht
    have := hl t ht
    simp [Option.isNone_iff_eq_none]
    rcases Option.isSome_iff_exists.1 this with ⟨d, hd⟩
    simp [hd]
  interval_cases hp : s.position
  · exact hcl0 _ (hflat rfl).2
  · obtain ⟨_, pre, t₀, htr, hclp, hop⟩ := hlong rfl
    rw [htr, openCount, List.filter_append]
    have h1 : pre.filter (fun t => t.exitDate.isNone) = [] := by
      rw [List.filter_eq_nil]
      intro t ht
      have := hclp t ht
      rcases Option.isSome_iff_exists.1 this with ⟨d, hd⟩
      simp [hd]
    rw [h1]
    simp [hop]

theorem lastEquity_nonneg (initialCapital : ℚ) (s : BTState) (h : BTInv2 s)
    (htr : s.trades ≠ []) : 0 ≤ lastEquity initialCapital s := by
  obtain ⟨⟨_, _, _, heq, _, _⟩, hne⟩ := h
  have heqne := hne htr
  rw [lastEquity]
  cases hl : s.equity.getLast? with
  | none => exact absurd (List.getLast?_eq_none_iff.1 hl) heqne
  | some e =>
    have : e ∈ s.equity.getLast? := by rw [hl]; rfl
    obtain ⟨hh, rfl⟩ := List.mem_getLast?_eq_getLast this
    exact heq _ (List.getLast_mem hh)

/-- A completed run never loses more than the whole stake: the reported
total return is at least -100 (and is 0 when no trade happened). -/
theorem totalReturn_ge (initialCapital : ℚ) (s : BTState) (h : BTInv2 s)
    (hc : 0 < initialCapital) : totalReturn initialCapital s ≥ -100 := by
  rw [totalReturn]
  by_cases htr : s.trades = []
  · rw [if_pos htr]; norm_num
  · rw [if_neg htr]
    have hle := lastEquity_nonneg initialCapital s h htr
    have hdiv : 0 ≤ lastEquity initialCapital s / initialCapital := by positivity
    have : (lastEquity initialCapital s - initialCapital) / initialCapital * 100 =
        lastEquity initialCapital s / initialCapital * 100 - 100 := by
      field_simp; ring
    rw [this]
    linarith

/-! ## The grid-search fold of optimize() -/

theorem selBest_spec {α : Type} (f : α → ℚ) (l : List α) (acc : Option α × ℚ) :
    (selBest f acc l = acc ∧ ∀ x ∈ l, f x ≤ acc.2) ∨
    (∃ i, ∃ hi : i < l.length, selBest f acc l = (some (l.get ⟨i, hi⟩), f (l.get ⟨i, hi⟩)) ∧
      acc.2 < f (l.get ⟨i, hi⟩) ∧ (∀ x ∈ l, f x ≤ f (l.get ⟨i, hi⟩)) ∧
      (∀ j, (hj : j < l.length) → j < i → f (l.get ⟨j, hj⟩) < f (l.get ⟨i, hi⟩))) := by
  induction l generalizing acc with
  | nil => left; exact ⟨rfl, by intro x hx; simp at hx⟩
  | cons a as ih =>
    by_cases ha : f a > acc.2
    · right
      have hsel : selBest f acc (a :: as) = selBest f (some a, f a) as := by
        rw [selBest, List.foldl_cons, if_pos ha, ← selBest]
      rcases ih (some a, f a) with ⟨h1, h2⟩ | ⟨i, hi, h1, h2, h3, h4⟩
      · refine ⟨0, by simp, ?_, ha, ?_, ?_⟩
        · rw [hsel, h1]; rfl
        · intro x hx
          rcases List.mem_cons.1 hx with hx | hx
          · subst hx; simp
          · simpa using h2 x hx
        · intro j hj hj0; omega
      · have h2a : f a < f (as.get ⟨i, hi⟩) := h2
        refine ⟨i + 1, by simpa using hi, ?_, ?_, ?_, ?_⟩
        · rw [hsel, h1]; rfl
        · simp only [List.get_cons_succ]; linarith
        · intro x hx
          rcases List.mem_cons.1 hx with hx | hx
          · subst hx; simp only [List.get_cons_succ]; linarith
          · simpa using h3 x hx
        · intro j hj hji
          cases j with
          | zero =>
            have hz : (a :: as).get ⟨0, hj⟩ = a := rfl
            simp only [List.get_cons_succ, hz]; linarith
          | succ k =>
            simp only [List.get_cons_succ]
            exact h4 k (by simpa using hj) (by omega)
    · have hsel : selBest f acc (a :: as) = selBest f acc as := by
        rw [selBest, List.foldl_cons, if_neg ha, ← selBest]
      push_neg at ha
      rcases ih acc with ⟨h1, h2⟩ | ⟨i, hi, h1, h2, h3, h4⟩
      · left
        refine ⟨by rw [hsel, h1], ?_⟩
        intro x hx
        rcases List.mem_cons.1 hx with hx | hx
        · subst hx; exact ha
        · exact h2 x hx
      · right
        refine ⟨i + 1, by simpa using hi, ?_, ?_, ?_, ?_⟩
        · rw [hsel, h1]; rfl
        · simp only [List.get_cons_succ]; linarith
        · intro x hx
          rcases List.mem_cons.1 hx with hx | hx
          · subst hx; simp only [List.get_cons_succ]; linarith
          · simpa using h3 x hx
        · intro j hj hji
          cases j with
          | zero =>
            have hz : (a :: as).get ⟨0, hj⟩ = a := rfl
            simp only [List.get_cons_succ, hz]; linarith
          | succ k =>
            simp only [List.get_cons_succ]
            exact h4 k (by simpa using hj) (by omega)

/-! ## Claims about the backtest engine -/

/-- C2: throughout every backtest simulation run, at every bar the number of
open positions is 0 or 1 (flat-or-long only): a buy occurs only when flat, a
sell only when long, a buy and a sell never both occur on the same bar, and
a Trade has its entry fields set from creation while its exit fields are
written only later, by a sell closing the single open trade. -/
theorem backtest_flat_or_long
    (initialCapital feeRate taxRate buyTh sellTh : ℚ) (bars : List BBar)
    (hc : 0 ≤ initialCapital) (hfee : 0 ≤ feeRate) (htax : 0 ≤ taxRate)
    (hft : feeRate + taxRate ≤ 1) (hbars : ∀ b ∈ bars, 0 < b.close) :
    (∀ s ∈ btTrace initialCapital feeRate taxRate buyTh sellTh bars,
        openCount s.trades = s.position ∧ s.position ≤ 1) ∧
    (∀ s b score, BTInv s → 0 < b.close →
      ¬((btDecide feeRate taxRate buyTh sellTh s b score).2 = some BAction.buy ∧
        (btDecide feeRate taxRate buyTh sellTh s b score).2 = some BAction.sell) ∧
      ((btDecide feeRate taxRate buyTh sellTh s b score).2 = some BAction.buy →
        s.position = 0 ∧ (btDecide feeRate taxRate buyTh sellTh s b score).1.position = 1 ∧
        (btDecide feeRate taxRate buyTh sellTh s b score).1.trades = s.trades ++
          [⟨b.date, b.close, buyShares feeRate s b,
            (buyShares feeRate s b : ℚ) * b.close +
              (buyShares feeRate s b : ℚ) * b.close * feeRate, none, none, 0, 0⟩]) ∧
      ((btDecide feeRate taxRate buyTh sellTh s b score).2 = some BAction.sell →
        s.position = 1 ∧ (btDecide feeRate taxRate buyTh sellTh s b score).1.position = 0 ∧
        ∃ pre t₀, s.trades = pre ++ [t₀] ∧ t₀.exitDate = none ∧
          (btDecide feeRate taxRate buyTh sellTh s b score).1.trades = pre ++
            [{ t₀ with exitDate := some b.date, exitPrice := some b.close,
                       pnl := sellNet feeRate taxRate s b - t₀.cost,
                       ret := (sellNet feeRate taxRate s b - t₀.cost) / t₀.cost * 100 }]) ∧
      ((btDecide feeRate taxRate buyTh sellTh s b score).2 = none →
        (btDecide feeRate taxRate buyTh sellTh s b score).1 = s)) := by
  constructor
  · intro s hs
    have hinv := trace_inv feeRate taxRate buyTh sellTh bars (initState initialCapital)
      hfee htax hft hbars
      ⟨initState_inv initialCapital hc, by intro h; exact absurd rfl h⟩ s hs
    exact ⟨openCount_eq_position s hinv.1, hinv.1.1⟩
  · intro s b score hinv hp
    obtain ⟨dinv, deq, dbuy, dsell, dnone⟩ :=
      btDecide_inv feeRate taxRate buyTh sellTh s b score hfee htax hft hp hinv
    refine ⟨?_, ?_, ?_, dnone⟩
    · rintro ⟨hb, hsl⟩; rw [hb] at hsl; simp at hsl
    · intro hb
      obtain ⟨hp0, hp1⟩ := dbuy hb
      refine ⟨hp0, hp1, ?_⟩
      have hd : btDecide feeRate taxRate buyTh sellTh s b score =
          (buyResult feeRate s b, some BAction.buy) := by
        by_cases h1 : s.position > 0
        · exact absurd hp0 (by omega)
        · by_cases h2 : score ≥ buyTh
          · by_cases h3 : buyShares feeRate s b > 0
            · rw [btDecide, if_neg h1, if_pos hp0, if_pos h2, if_pos h3]
            · have := dnone (by rw [btDecide, if_neg h1, if_pos hp0, if_pos h2, if_neg h3])
              rw [btDecide, if_neg h1, if_pos hp0, if_pos h2, if_neg h3] at hb
              simp at hb
          · rw [btDecide, if_neg h1, if_pos hp0, if_neg h2] at hb
            simp at hb
      rw [hd]
      exact (buyResult_fields feeRate s b).2.2.2
    · intro hsl
      obtain ⟨hp1, hp0⟩ := dsell hsl
      obtain ⟨_, pre, t₀, htr, hcl, hop⟩ := hinv.2.2.2.2.2 hp1
      have hd : btDecide feeRate taxRate buyTh sellTh s b score =
          (sellResult feeRate taxRate s b, some BAction.sell) := by
        by_cases h1 : s.position > 0
        · by_cases h2 : score ≤ sellTh
          · rw [btDecide, if_pos h1, if_pos h2]
          · rw [btDecide, if_pos h1, if_neg h2] at hsl; simp at hsl
        · exact absurd hp1 (by omega)
      refine ⟨hp1, hp0, pre, t₀, htr, hop, ?_⟩
      rw [hd]
      have := (sellResult_fields feeRate taxRate s b).2.2.2.2
      rw [this, htr, mapLast_append]

/-- Witness for C2 at a concrete two-bar run with the default fees. -/
theorem backtest_flat_or_long_witness :
    (∀ s ∈ btTrace 100000 (1425/1000000) (3/1000) 3 (-2)
        [⟨0, 10, some 5⟩, ⟨1, 11, some (-5)⟩],
        openCount s.trades = s.position ∧ s.position ≤ 1) ∧
    (∀ s b score, BTInv s → 0 < b.close →
      ¬((btDecide (1425/1000000) (3/1000) 3 (-2) s b score).2 = some BAction.buy ∧
        (btDecide (1425/1000000) (3/1000) 3 (-2) s b score).2 = some BAction.sell) ∧
      ((btDecide (1425/1000000) (3/1000) 3 (-2) s b score).2 = some BAction.buy →
        s.position = 0 ∧ (btDecide (1425/1000000) (3/1000) 3 (-2) s b score).1.position = 1 ∧
        (btDecide (1425/1000000) (3/1000) 3 (-2) s b score).1.trades = s.trades ++
          [⟨b.date, b.close, buyShares (1425/1000000) s b,
            (buyShares (1425/1000000) s b : ℚ) * b.close +
              (buyShares (1425/1000000) s b : ℚ) * b.close * (1425/1000000), none, none, 0, 0⟩]) ∧
      ((btDecide (1425/1000000) (3/1000) 3 (-2) s b score).2 = some BAction.sell →
        s.position = 1 ∧ (btDecide (1425/1000000) (3/1000) 3 (-2) s b score).1.position = 0 ∧
        ∃ pre t₀, s.trades = pre ++ [t₀] ∧ t₀.exitDate = none ∧
          (btDecide (1425/1000000) (3/1000) 3 (-2) s b score).1.trades = pre ++
            [{ t₀ with exitDate := some b.date, exitPrice := some b.close,
                       pnl := sellNet (1425/1000000) (3/1000) s b - t₀.cost,
                       ret := (sellNet (1425/1000000) (3/1000) s b - t₀.cost) / t₀.cost * 100 }]) ∧
      ((btDecide (1425/1000000) (3/1000) 3 (-2) s b score).2 = none →
        (btDecide (1425/1000000) (3/1000) 3 (-2) s b score).1 = s)) :=
  backtest_flat_or_long 100000 (1425/1000000) (3/1000) 3 (-2)
    [⟨0, 10, some 5⟩, ⟨1, 11, some (-5)⟩]
    (by norm_num) (by norm_num) (by norm_num) (by norm_num)
    (by intro b hb; fin_cases hb <;> norm_num)

/-- C10: cash never becomes negative along a run; on a buy the share count
is floor((cash/(1+fee_rate))/price) and the cash spent is
shares*price*(1+fee_rate), leaving a nonnegative balance; every sell
liquidates the whole holding back to 0 shares. -/
theorem backtest_cash_nonneg
    (initialCapital feeRate taxRate buyTh sellTh : ℚ) (bars : List BBar)
    (hc : 0 ≤ initialCapital) (hfee : 0 ≤ feeRate) (htax : 0 ≤ taxRate)
    (hft : feeRate + taxRate ≤ 1) (hbars : ∀ b ∈ bars, 0 < b.close) :
    (∀ s ∈ btTrace initialCapital feeRate taxRate buyTh sellTh bars,
        0 ≤ s.cash ∧ 0 ≤ s.holdings) ∧
    (∀ s b, 0 < b.close →
        buyShares feeRate s b = ((s.cash / (1 + feeRate)) / b.close).floor ∧
        (buyResult feeRate s b).cash =
          s.cash - ((buyShares feeRate s b : ℚ) * b.close +
                    (buyShares feeRate s b : ℚ) * b.close * feeRate) ∧
        0 ≤ (buyResult feeRate s b).cash) ∧
    (∀ s b, (sellResult feeRate taxRate s b).holdings = 0 ∧
        (sellResult feeRate taxRate s b).position = 0) := by
  refine ⟨?_, ?_, ?_⟩
  · intro s hs
    have hinv := trace_inv feeRate taxRate buyTh sellTh bars (initState initialCapital)
      hfee htax hft hbars
      ⟨initState_inv initialCapital hc, by intro h; exact absurd rfl h⟩ s hs
    exact ⟨hinv.1.2.1, hinv.1.2.2.1⟩
  · intro s b hp
    exact ⟨rfl, rfl, buyResult_cash_nonneg feeRate s b hfee hp⟩
  · intro s b
    exact ⟨rfl, rfl⟩

/-- Witness for C10 at a concrete two-bar run with the default fees. -/
theorem backtest_cash_nonneg_witness :
    (∀ s ∈ btTrace 100000 (1425/1000000) (3/1000) 3 (-2)
        [⟨0, 10, some 5⟩, ⟨1, 11, some (-5)⟩],
        0 ≤ s.cash ∧ 0 ≤ s.holdings) ∧
    (∀ s b, 0 < b.close →
        buyShares (1425/1000000) s b = ((s.cash / (1 + (1425/1000000))) / b.close).floor ∧
        (buyResult (1425/1000000) s b).cash =
          s.cash - ((buyShares (1425/1000000) s b : ℚ) * b.close +
                    (buyShares (1425/1000000) s b : ℚ) * b.close * (1425/1000000)) ∧
        0 ≤ (buyResult (1425/1000000) s b).cash) ∧
    (∀ s b, (sellResult (1425/1000000) (3/1000) s b).holdings = 0 ∧
        (sellResult (1425/1000000) (3/1000) s b).position = 0) :=
  backtest_cash_nonneg 100000 (1425/1000000) (3/1000) 3 (-2)
    [⟨0, 10, some 5⟩, ⟨1, 11, some (-5)⟩]
    (by norm_num) (by norm_num) (by norm_num) (by norm_num)
    (by intro b hb; fin_cases hb <;> norm_num)

/-- C3: the optimizer runs the backtest for every (buy, sell) pair of the
5 x 4 grid, returns a pair of the grid whose total_return is maximal on the
given series, and on ties returns the first maximal pair in iteration
order. -/
theorem optimizer_grid_best (initialCapital feeRate taxRate : ℚ) (bars : List BBar)
    (hc : 0 < initialCapital) (hfee : 0 ≤ feeRate) (htax : 0 ≤ taxRate)
    (hft : feeRate + taxRate ≤ 1) (hbars : ∀ b ∈ bars, 0 < b.close) :
    ∃ i, ∃ hi : i < gridPairs.length,
      btOptimize initialCapital feeRate taxRate bars =
        (some (gridPairs.get ⟨i, hi⟩),
         totalReturn initialCapital (btRun initialCapital feeRate taxRate
           (gridPairs.get ⟨i, hi⟩).1 (gridPairs.get ⟨i, hi⟩).2 bars)) ∧
      (∀ q ∈ gridPairs,
        totalReturn initialCapital (btRun initialCapital feeRate taxRate q.1 q.2 bars) ≤
        totalReturn initialCapital (btRun initialCapital feeRate taxRate
          (gridPairs.get ⟨i, hi⟩).1 (gridPairs.get ⟨i, hi⟩).2 bars)) ∧
      (∀ j, (hj : j < gridPairs.length) → j < i →
        totalReturn initialCapital (btRun initialCapital feeRate taxRate
          (gridPairs.get ⟨j, hj⟩).1 (gridPairs.get ⟨j, hj⟩).2 bars) <
        totalReturn initialCapital (btRun initialCapital feeRate taxRate
          (gridPairs.get ⟨i, hi⟩).1 (gridPairs.get ⟨i, hi⟩).2 bars)) := by
  set f : ℚ × ℚ → ℚ := fun p =>
    totalReturn initialCapital (btRun initialCapital feeRate taxRate p.1 p.2 bars) with hf
  have hge : ∀ p : ℚ × ℚ, f p ≥ -100 := by
    intro p
    exact totalReturn_ge initialCapital _
      (run_inv initialCapital feeRate taxRate p.1 p.2 bars hc.le hfee htax hft hbars) hc
  rcases selBest_spec f gridPairs (none, -999) with ⟨_, h2⟩ | ⟨i, hi, h1, _, h3, h4⟩
  · exfalso
    have hmem : ((1 : ℚ), (-1 : ℚ)) ∈ gridPairs := by
      rw [gridPairs, buyThresholds, sellThresholds]; simp
    have ha := h2 _ hmem
    have hb := hge (1, -1)
    simp only at ha
    linarith
  · exact ⟨i, hi, h1, h3, fun j hj hji => h4 j hj hji⟩

/-- Witness for C3 at a concrete one-bar series with the default fees. -/
theorem optimizer_grid_best_witness :
    ∃ i, ∃ hi : i < gridPairs.length,
      btOptimize 100000 (1425/1000000) (3/1000) [⟨0, 10, some 0⟩] =
        (some (gridPairs.get ⟨i, hi⟩),
         totalReturn 100000 (btRun 100000 (1425/1000000) (3/1000)
           (gridPairs.get ⟨i, hi⟩).1 (gridPairs.get ⟨i, hi⟩).2 [⟨0, 10, some 0⟩])) ∧
      (∀ q ∈ gridPairs,
        totalReturn 100000 (btRun 100000 (1425/1000000) (3/1000) q.1 q.2 [⟨0, 10, some 0⟩]) ≤
        totalReturn 100000 (btRun 100000 (1425/1000000) (3/1000)
          (gridPairs.get ⟨i, hi⟩).1 (gridPairs.get ⟨i, hi⟩).2 [⟨0, 10, some 0⟩])) ∧
      (∀ j, (hj : j < gridPairs.length) → j < i →
        totalReturn 100000 (btRun 100000 (1425/1000000) (3/1000)
          (gridPairs.get ⟨j, hj⟩).1 (gridPairs.get ⟨j, hj⟩).2 [⟨0, 10, some 0⟩]) <
        totalReturn 100000 (btRun 100000 (1425/1000000) (3/1000)
          (gridPairs.get ⟨i, hi⟩).1 (gridPairs.get ⟨i, hi⟩).2 [⟨0, 10, some 0⟩])) :=
  optimizer_grid_best 100000 (1425/1000000) (3/1000) [⟨0, 10, some 0⟩]
    (by norm_num) (by norm_num) (by norm_num) (by norm_num)
    (by intro b hb; fin_cases hb <;> norm_num)

/-! ## The analyzer DataFrame model (src/analysis_engine.py)

A pandas frame is modelled by its row count and one optional list per
column the analyzer reads; a present column of a well-formed frame has
exactly n entries in chronological order.  A direct item access
(current[name]) on an absent column raises KeyError: it is modelled in the
Except monad with the column name as the error value; Series.get with a
default returns the default on an absent column. -/

structure DF where
  n : ℕ
  dates : List ℕ
  opn : Option (List ℚ)
  high : Option (List ℚ)
  low : Option (List ℚ)
  close : Option (List ℚ)
  volume : Option (List ℚ)
  ma5 : Option (List ℚ)
  ma10 : Option (List ℚ)
  ma20 : Option (List ℚ)
  ma60 : Option (List ℚ)
  ma120 : Option (List ℚ)
  ma240 : Option (List ℚ)
  bias : Option (List ℚ)
  efi : Option (List ℚ)
  hist : Option (List ℚ)
  macd : Option (List ℚ)
  k : Option (List ℚ)
  d : Option (List ℚ)
  obv : Option (List ℚ)
  adx : Option (List ℚ)
  pdi : Option (List ℚ)
  mdi : Option (List ℚ)
  rsi : Option (List ℚ)
  bbLo : Option (List ℚ)
  bbUp : Option (List ℚ)
  atr : Option (List ℚ)
  tdBuy : Option (List ℚ)
  tdSell : Option (List ℚ)
  pattern : Option (List String)
deriving DecidableEq

/-- Direct access to a column (df[name]); raises KeyError when absent. -/
def colE (c : Option (List ℚ)) (name : String) : Except String (List ℚ) :=
  match c with
  | some l => Except.ok l
  | none => Except.error name

/-- Direct item access current[name] at python index i. -/
def cellE (c : Option (List ℚ)) (name : String) (i : Int) : Except String ℚ :=
  (colE c name).map (fun l => pyGetD l i 0)

/-- Series.get(name, default) at python index i: the default when the
column is absent. -/
def cellD (c : Option (List ℚ)) (i : Int) (dflt : ℚ) : ℚ :=
  match c with
  | some l => pyGetD l i dflt
  | none => dflt

/-! ## Pivot divergence detection (_detect_divergence)

scipy.signal.argrelextrema(data, np.less, order=3) in its default clip
mode marks index i when data[i] is strictly below data at every clipped
index i ± k for k = 1..order; np.greater mirrors this. -/

/-- data[clip(j)] with the numpy clip boundary mode. -/
def clipGet (data : List ℚ) (j : Int) : ℚ :=
  data.getD (max 0 (min j ((data.length : Int) - 1))).toNat 0

/-- argrelextrema membership test at index i (less = true for np.less). -/
def isPivot (less : Bool) (order : ℕ) (data : List ℚ) (i : ℕ) : Bool :=
  (List.range order).all (fun k =>
    let cmp := fun a b : ℚ => if less then a < b else a > b
    decide (cmp (data.getD i 0) (clipGet data ((i : Int) - (k + 1)))) &&
    decide (cmp (data.getD i 0) (clipGet data ((i : Int) + (k + 1)))))

/-- argrelextrema(data, cmp, order): the ascending list of pivot indices. -/
def pivotIdxs (less : Bool) (order : ℕ) (data : List ℚ) : List ℕ :=
  (List.range data.length).filter (isPivot less order data)

/-- The divergence classification returned by _detect_divergence. -/
inductive DivSignal where
  | bull
  | bullStrong
  | bullWeak
  | bear
  | bearStrong
  | bearWeak
deriving DecidableEq

/-- The two most recent price pivots and their matched indicator pivots
(indices into the window), for the bottom (np.less) axis; none when either
axis has fewer than two pivots or a candidate set is empty. -/
structure PivotPair where
  p1 : ℕ
  p2 : ℕ
  i1 : ℕ
  i2 : ℕ
deriving DecidableEq

def bottomPivotIdx (lows ind : List ℚ) : Option PivotPair :=
  let pmin := pivotIdxs true 3 lows
  let imin := pivotIdxs true 3 ind
  if pmin.length ≥ 2 ∧ imin.length ≥ 2 then
    let p1 := pyGetD pmin (-2) 0
    let p2 := pyGetD pmin (-1) 0
    let c1 := imin.filter (fun j => decide (j ≤ p1 + 3) && decide (p1 - 3 ≤ j))
    let c2 := imin.filter (fun j => decide (j ≤ p2 + 3) && decide (max p1 (p2 - 3) ≤ j))
    if c1 ≠ [] ∧ c2 ≠ [] then
      some ⟨p1, p2, pyGetD c1 (-1) p1, pyGetD c2 (-1) p2⟩
    else none
  else none

def topPivotIdx (highs ind : List ℚ) : Option PivotPair :=
  let pmax := pivotIdxs false 3 highs
  let imax := pivotIdxs false 3 ind
  if pmax.length ≥ 2 ∧ imax.length ≥ 2 then
    let p1 := pyGetD pmax (-2) 0
    let p2 := pyGetD pmax (-1) 0
    let c1 := imax.filter (fun j => decide (j ≤ p1 + 3) && decide (p1 - 3 ≤ j))
    let c2 := imax.filter (fun j => decide (j ≤ p2 + 3) && decide (max p1 (p2 - 3) ≤ j))
    if c1 ≠ [] ∧ c2 ≠ [] then
      some ⟨p1, p2, pyGetD c1 (-1) p1, pyGetD c2 (-1) p2⟩
    else none
  else none

/-- Bottom (bullish) divergence check of _detect_divergence: standard when
the price makes a lower low while the indicator makes a higher low,
escalated to strong when the price drop exceeds 3 percent and the
indicator rise exceeds 10 percent (relative, with the explicit
zero-denominator guard on the indicator); hidden when the price makes a
higher low while the indicator makes a lower low. -/
def classifyBottom (lows ind : List ℚ) : Option DivSignal :=
  match bottomPivotIdx lows ind with
  | none => none
  | some pp =>
    let p1v := lows.getD pp.p1 0
    let p2v := lows.getD pp.p2 0
    let v1 := ind.getD pp.i1 0
    let v2 := ind.getD pp.i2 0
    if p2v < p1v ∧ v2 > v1 then
      let dropPct := (p1v - p2v) / p1v * 100
      let risePct := if v1 ≠ 0 then (v2 - v1) / |v1| * 100 else 0
      if dropPct > 3 ∧ risePct > 10 then some DivSignal.bullStrong
      else some DivSignal.bull
    else if p2v > p1v ∧ v2 < v1 then some DivSignal.bullWeak
    else none

/-- Top (bearish) divergence check, mirroring classifyBottom. -/
def classifyTop (highs ind : List ℚ) : Option DivSignal :=
  match topPivotIdx highs ind with
  | none => none
  | some pp =>
    let p1v := highs.getD pp.p1 0
    let p2v := highs.getD pp.p2 0
    let v1 := ind.getD pp.i1 0
    let v2 := ind.getD pp.i2 0
    if p2v > p1v ∧ v2 < v1 then
      let risePct := (p2v - p1v) / p1v * 100
      let dropPct := if v1 ≠ 0 then (v1 - v2) / |v1| * 100 else 0
      if risePct > 3 ∧ dropPct > 10 then some DivSignal.bearStrong
      else some DivSignal.bear
    else if p2v < p1v ∧ v2 > v1 then some DivSignal.bearWeak
    else none

/-- _detect_divergence(df, indicator_name, window = 40): none when the
frame is shorter than the window or the indicator column is absent; the
bottom check runs before the top check on the last window bars; Low and
High are accessed directly and raise when absent. -/
def detectDivergence (df : DF) (indCol : Option (List ℚ)) (window : ℕ) :
    Except String (Option DivSignal) :=
  if df.n < window ∨ indCol.isNone then Except.ok none
  else
    (colE df.low "Low").bind fun lowL =>
    (colE df.high "High").bind fun highL =>
    let lows := lastK lowL window
    let highs := lastK highL window
    let ind := lastK (indCol.getD []) window
    Except.ok (match classifyBottom lows ind with
               | some r => some r
               | none => classifyTop highs ind)

/-! ## Score-detail entries

The analyzer appends one human-readable message per triggered rule.  Each
message is modelled by one constructor carrying the numeric payloads that
the source interpolates into the f-string; the Chinese text itself is kept
in the source.  Only the k-line messages need their literal text (for the
substring check of the Pattern de-duplication), provided by klineText. -/

/-- Messages of the morphology detectors (_detect_double_patterns,
_detect_head_and_shoulders, _detect_triangle_convergence). -/
inductive MorphDetail where
  | wBottom
  | mTop
  | hsBottom (volShrink : Bool)
  | hsTop
  | triangleSqueeze
  | triangleMonitor
deriving DecidableEq

/-- Messages of _detect_kline_patterns. -/
inductive KlineDetail where
  | bullEngulfVol
  | bullEngulf
  | bearEngulfVol
  | bearEngulf
  | explosiveVol (ratio : ℚ)
  | morningStarVol
  | morningStar
  | dojiHighVol
  | dojiLowVol
  | patternInfo (p : String)
deriving DecidableEq

inductive Detail where
  | insufficientData
  | maBullStack
  | maAboveW
  | maBearStack
  | maTangled
  | dmiBullW (adx : ℚ)
  | dmiBearW (adx : ℚ)
  | dmiUnclear (adx : ℚ)
  | obvUp5w
  | obvDownW
  | efiBullW (efi : ℚ)
  | efiBearW (efi : ℚ)
  | weekly (m : MorphDetail)
  | morph (m : MorphDetail)
  | kline (m : KlineDetail)
  | pvUpUp
  | pvUpDown
  | pvDownUp
  | pvDownDown
  | maAboveD
  | maBelowD
  | biasHealthy (b : ℚ)
  | biasHot (b : ℚ)
  | biasCold (b : ℚ)
  | efiBullD
  | efiStrongerD
  | efiBearD
  | macdRed
  | macdStrongerD
  | macdGreen
  | divMacd (s : DivSignal)
  | divObv (s : DivSignal)
  | kdGold
  | kdDead
  | obvIn3d
  | dmiBullD (adx : ℚ)
  | dmiBearD (adx : ℚ)
  | rsiBullDiv (strong : Bool)
  | rsiBearDiv (strong : Bool)
  | td9Buy
  | td8Buy
  | td9Sell
  | td8Sell
  | chipInstFlow (buySide : Bool) (sync : Bool)
  | chipMarginHot (util : ℚ)
  | chipMarginLow (util : ℚ)
  | chipDayTradeHigh (rate : ℚ)
  | chipDayTradeLow (rate : ℚ)
  | chipStreakBuy (days : ℕ)
  | chipStreakSell (days : ℕ)
  | usNoData
  | usInstVeryHigh
  | usInstHigh
  | usInstLow
  | usInstAdd
  | usInstReduce
  | usShortSqueeze
  | usShortInfo
  | usShortRatioHigh
  | usShortCover
  | usShortIncrease
  | usInsiderStrongBuy
  | usInsiderBuy
  | usInsiderStrongSell
  | usInsiderSell
  | usAnalystBuy
  | usAnalystSell
  | usAnalystUpside
  | usAnalystDownside

/-! ## _detect_us_stock -/

/-- _detect_us_stock: an empty ticker is not a US stock; after upper-casing
and stripping, pure digit strings and .TW / .TWO suffixes are Taiwanese;
a string that is alphabetic after removing dots and dashes is a US stock
(tickers are ASCII, so Python upper/strip coincide with the character
maps used here). -/
def detectUSStock (ticker : String) : Bool :=
  if ticker.data = [] then false
  else
    let l := ((ticker.data.map Char.toUpper).dropWhile Char.isWhitespace).reverse
      |>.dropWhile Char.isWhitespace |>.reverse
    if l ≠ [] && l.all Char.isDigit then false
    else if ".TW".data.isSuffixOf l || ".TWO".data.isSuffixOf l then false
    else
      let r := l.filter (fun c => c ≠ '.' && c ≠ '-')
      r ≠ [] && r.all Char.isAlpha

/-! ## _detect_kline_patterns -/

/-- Substring containment on character lists (Python: needle in hay). -/
def charListContains : List Char → List Char → Bool
  | _, [] => true
  | [], _ :: _ => false
  | h :: t, c :: cs => List.isPrefixOf (c :: cs) (h :: t) || charListContains t (c :: cs)

/-- The literal message text of each k-line detail, used only by the
Pattern de-duplication substring check (the interpolated volume ratio of
the explosive-volume message is omitted: the check only ever looks for
pattern names, which are non-numeric). -/
def klineText : KlineDetail → String
  | KlineDetail.bullEngulfVol => "🕯️ 出現【多頭吞噬】+【量增】強力反轉訊號 (+2)"
  | KlineDetail.bullEngulf => "🕯️ 出現【多頭吞噬】反轉訊號 (量能未出) (+1)"
  | KlineDetail.bearEngulfVol => "🕯️ 出現【空頭吞噬】+【量增】高檔出貨訊號 (-2)"
  | KlineDetail.bearEngulf => "🕯️ 出現【空頭吞噬】高檔反轉訊號 (-1.5)"
  | KlineDetail.explosiveVol _ => "💣 出現【爆量長紅】攻擊訊號 (量增倍) (+2)"
  | KlineDetail.morningStarVol => "✨ 出現【晨星】+【量增】標準底部轉折訊號 (+2)"
  | KlineDetail.morningStar => "✨ 出現【晨星】標準底部轉折訊號 (+1.5)"
  | KlineDetail.dojiHighVol => "⚠️ 出現【爆量十字線】多空劇烈交戰，留意變盤 (Info)"
  | KlineDetail.dojiLowVol => "⚠️ 出現【量縮十字線】多空觀望 (Info)"
  | KlineDetail.patternInfo p => "🕯️ 形態識別: " ++ p ++ " (+0)"

/-- _detect_kline_patterns: engulfing, explosive volume, morning star and
doji detectors on the last three bars, plus the informational Pattern
column with its substring-based de-duplication.  Close, Open and Volume
are accessed directly (Volume is read unconditionally for the 5-bar
average, so a missing Volume raises in any path, as in the source). -/
def detectKlinePatterns (df : DF) : Except String (ℚ × List KlineDetail) :=
  if df.n < 5 then Except.ok (0, [])
  else
    (colE df.close "Close").bind fun closes =>
    (colE df.opn "Open").bind fun opens =>
    (colE df.volume "Volume").bind fun vols =>
    let cClose := pyGetD closes (-1) 0
    let cOpen := pyGetD opens (-1) 0
    let pClose := pyGetD closes (-2) 0
    let pOpen := pyGetD opens (-2) 0
    let ppClose := pyGetD closes (-3) 0
    let ppOpen := pyGetD opens (-3) 0
    let cVol := pyGetD vols (-1) 0
    let pVol := pyGetD vols (-2) 0
    let bodyC := |cClose - cOpen|
    let bodyP := |pClose - pOpen|
    let dirC : ℤ := if cClose > cOpen then 1 else -1
    let dirP : ℤ := if pClose > pOpen then 1 else -1
    let dirPP : ℤ := if ppClose > ppOpen then 1 else -1
    let avgBody := rollMeanLast (List.zipWith (fun a b => |a - b|) closes opens) 10
    let isLongC := bodyC > 3/2 * avgBody
    let e1 : ℚ × List KlineDetail :=
      if dirP = -1 ∧ dirC = 1 ∧ cOpen ≤ pClose ∧ cClose ≥ pOpen then
        (if cVol > pVol then ((2 : ℚ), [KlineDetail.bullEngulfVol])
         else (1, [KlineDetail.bullEngulf]))
      else (0, [])
    let e2 : ℚ × List KlineDetail :=
      if dirP = 1 ∧ dirC = -1 ∧ cOpen ≥ pClose ∧ cClose ≤ pOpen then
        (if cVol > pVol then ((-2 : ℚ), [KlineDetail.bearEngulfVol])
         else (-(3/2), [KlineDetail.bearEngulf]))
      else (0, [])
    let volMa5 := rollMeanLast vols 5
    let e3 : ℚ × List KlineDetail :=
      if cVol > 2 * volMa5 ∧ dirC = 1 ∧ isLongC then
        ((2 : ℚ), [KlineDetail.explosiveVol (cVol / volMa5)])
      else (0, [])
    let isLongPP := |ppClose - ppOpen| > avgBody
    let pBodyTop := max pOpen pClose
    let ppBodyBottom := min ppOpen ppClose
    let isGapDown := pBodyTop < ppBodyBottom
    let isStarP := bodyP < 1/2 * avgBody
    let micpointPP := (ppOpen + ppClose) / 2
    let e4 : ℚ × List KlineDetail :=
      if (dirPP = -1 ∧ isLongPP) ∧ (isStarP ∧ isGapDown) ∧ (dirC = 1 ∧ cClose > micpointPP) then
        (if cVol > pVol then ((2 : ℚ), [KlineDetail.morningStarVol])
         else (3/2, [KlineDetail.morningStar]))
      else (0, [])
    let e5 : ℚ × List KlineDetail :=
      if bodyC < 1/10 * avgBody then
        (if cVol > 2 * volMa5 then ((0 : ℚ), [KlineDetail.dojiHighVol])
         else (0, [KlineDetail.dojiLowVol]))
      else (0, [])
    let msgs0 := e1.2 ++ e2.2 ++ e3.2 ++ e4.2 ++ e5.2
    let e6 : List KlineDetail :=
      match df.pattern with
      | none => []
      | some pl =>
        let v := pyGetD pl (-1) ""
        if v ≠ "" ∧ v ∉ ["None", "nan"] then
          let pref := (v.splitOn "(").headD v
          if msgs0.any (fun m => charListContains (klineText m).data pref.data) then []
          else [KlineDetail.patternInfo v]
        else []
    Except.ok (e1.1 + e2.1 + e3.1 + e4.1 + e5.1, msgs0 ++ e6)

/-! ## _detect_morphology and its three sub-detectors -/

/-- Maximum of a nonempty list (0 for the empty list; every use is over a
provably nonempty slice). -/
def listMax (l : List ℚ) : ℚ :=
  match l with
  | [] => 0
  | x :: xs => listMaxD xs x

/-- Minimum of a nonempty list. -/
def listMin (l : List ℚ) : ℚ :=
  match l with
  | [] => 0
  | x :: xs => listMinD xs x

/-- Python slice l[a:b] with int bounds (a negative bound counts from the
end, and the result is empty when the normalised bounds cross). -/
def pyIntSlice (l : List ℚ) (a b : Int) : List ℚ :=
  let n : Int := l.length
  let norm := fun (x : Int) => (max 0 (min n (if x < 0 then n + x else x))).toNat
  pySlice l (norm a) (norm b)

/-- numpy mean: none models the NaN produced on an empty slice, which
falsifies every subsequent comparison. -/
def npMean? (l : List ℚ) : Option ℚ :=
  match l with
  | [] => none
  | _ => some (listMean l)

/-- _detect_double_patterns: W bottom and M top from close-price pivots
with radius 5 inside the last 60 bars. -/
def detectDoublePatterns (df : DF) : Except String (ℚ × List MorphDetail) :=
  (colE df.close "Close").bind fun prices =>
  let maxIdx := pivotIdxs false 5 prices
  let minIdx := pivotIdxs true 5 prices
  let recentMax := maxIdx.filter (fun i => decide (i > df.n - 60))
  let recentMin := minIdx.filter (fun i => decide (i > df.n - 60))
  let current := pyGetD prices (-1) 0
  let w : ℚ × List MorphDetail :=
    if recentMin.length ≥ 2 then
      let i2 := pyGetD recentMin (-1) 0
      let i1 := pyGetD recentMin (-2) 0
      let l2 := prices.getD i2 0
      let l1 := prices.getD i1 0
      if i2 - i1 > 5 then
        (if |l1 - l2| / l1 < 3/100 ∧ current > l2 ∧ current < l2 * (115/100) then
          ((2 : ℚ), [MorphDetail.wBottom]) else (0, []))
      else (0, [])
    else (0, [])
  let m : ℚ × List MorphDetail :=
    if recentMax.length ≥ 2 then
      let i2 := pyGetD recentMax (-1) 0
      let i1 := pyGetD recentMax (-2) 0
      let h2 := prices.getD i2 0
      let h1 := prices.getD i1 0
      if i2 - i1 > 5 then
        (if |h1 - h2| / h1 < 3/100 ∧ current < h2 ∧ current > h2 * (85/100) then
          ((-2 : ℚ), [MorphDetail.mTop]) else (0, []))
      else (0, [])
    else (0, [])
  Except.ok (w.1 + m.1, w.2 ++ m.2)

/-- _detect_head_and_shoulders: three most recent close-price pivots with
radius 4 inside the last 80 bars, shoulder symmetry within 10 percent and
a volume confirmation on 5-bar windows around the shoulders (the neckline
of the source is computed but never used, so it is omitted here). -/
def detectHeadShoulders (df : DF) : Except String (ℚ × List MorphDetail) :=
  (colE df.close "Close").bind fun prices =>
  (colE df.volume "Volume").bind fun volumes =>
  let maxIdx := pivotIdxs false 4 prices
  let minIdx := pivotIdxs true 4 prices
  let bot : ℚ × List MorphDetail :=
    let recentMin := minIdx.filter (fun i => decide (i > df.n - 80))
    if recentMin.length ≥ 3 then
      let iLs := pyGetD recentMin (-3) 0
      let iRs := pyGetD recentMin (-1) 0
      let pLs := prices.getD iLs 0
      let pH := prices.getD (pyGetD recentMin (-2) 0) 0
      let pRs := prices.getD iRs 0
      if (pH < pLs ∧ pH < pRs) ∧ |pLs - pRs| / pLs < 1/10 then
        match npMean? (pyIntSlice volumes ((iLs : Int) - 2) ((iLs : Int) + 3)),
              npMean? (pyIntSlice volumes ((iRs : Int) - 2) ((iRs : Int) + 3)) with
        | some vLs, some vRs =>
          if vRs < vLs * (12/10) then
            (if pyGetD prices (-1) 0 > pRs then ((3 : ℚ), [MorphDetail.hsBottom (vRs < vLs)])
             else (0, []))
          else (0, [])
        | _, _ => (0, [])
      else (0, [])
    else (0, [])
  let top : ℚ × List MorphDetail :=
    let recentMax := maxIdx.filter (fun i => decide (i > df.n - 80))
    if recentMax.length ≥ 3 then
      let iLs := pyGetD recentMax (-3) 0
      let iRs := pyGetD recentMax (-1) 0
      let pLs := prices.getD iLs 0
      let pH := prices.getD (pyGetD recentMax (-2) 0) 0
      let pRs := prices.getD iRs 0
      if (pH > pLs ∧ pH > pRs) ∧ |pLs - pRs| / pLs < 1/10 then
        match npMean? (pyIntSlice volumes ((iLs : Int) - 2) ((iLs : Int) + 3)),
              npMean? (pyIntSlice volumes ((iRs : Int) - 2) ((iRs : Int) + 3)) with
        | some vLs, some vRs =>
          if vRs < vLs then ((-3 : ℚ), [MorphDetail.hsTop]) else (0, [])
        | _, _ => (0, [])
      else (0, [])
    else (0, [])
  Except.ok (bot.1 + top.1, bot.2 ++ top.2)

/-- _detect_triangle_convergence on the last 30 bars: compressed second
half, descending highs and ascending lows, upgraded from monitor to a
score of 1 when the 5-bar volume average is below 80 percent of the
20-bar average. -/
def detectTriangle (df : DF) : Except String (ℚ × List MorphDetail) :=
  if df.n < 30 then Except.ok (0, [])
  else
    (colE df.high "High").bind fun highL =>
    (colE df.low "Low").bind fun lowL =>
    (colE df.volume "Volume").bind fun volL =>
    let rH := lastK highL 30
    let rL := lastK lowL 30
    let rV := lastK volL 30
    let mid := (min df.n 30) / 2
    let h1 := listMax (firstK rH mid)
    let l1 := listMin (firstK rL mid)
    let h2 := listMax (rH.drop mid)
    let l2 := listMin (rL.drop mid)
    let isSqueezing := h2 - l2 < (h1 - l1) * (8/10)
    let isTriangle := h2 < h1 ∧ l2 > l1
    Except.ok (
      if isTriangle ∧ isSqueezing then
        (if rollMeanLast rV 5 < rollMeanLast rV 20 * (8/10) then
          ((1 : ℚ), [MorphDetail.triangleSqueeze])
         else (0, [MorphDetail.triangleMonitor]))
      else (0, []))

/-- _detect_morphology: the three chart-pattern detectors in order, only
on frames of at least 60 bars. -/
def detectMorphology (df : DF) : Except String (ℚ × List MorphDetail) :=
  if df.n < 60 then Except.ok (0, [])
  else
    (detectDoublePatterns df).bind fun r1 =>
    (detectHeadShoulders df).bind fun r2 =>
    (detectTriangle df).bind fun r3 =>
    Except.ok (r1.1 + r2.1 + r3.1, r1.2 ++ r2.2 ++ r3.2)

/-! ## _analyze_price_volume -/

/-- _analyze_price_volume: the four price/volume regimes against the 5-bar
volume average (the 20-bar average of the source is computed but unused).
Requires 20 bars, else neutral. -/
def analyzePriceVolume (df : DF) : Except String (ℚ × List Detail) :=
  if df.n < 20 then Except.ok (0, [])
  else
    (colE df.volume "Volume").bind fun vols =>
    (colE df.close "Close").bind fun closes =>
    let volMa5 := rollMeanLast vols 5
    let cClose := pyGetD closes (-1) 0
    let pClose := pyGetD closes (-2) 0
    let cVol := pyGetD vols (-1) 0
    let priceUp := cClose > pClose
    let priceDown := cClose < pClose
    let volUp := cVol > volMa5
    let volDown := cVol < volMa5
    Except.ok (
      if priceUp ∧ volUp then ((1 : ℚ), [Detail.pvUpUp])
      else if priceUp ∧ volDown then (-(1/2), [Detail.pvUpDown])
      else if priceDown ∧ volUp then ((-1 : ℚ), [Detail.pvDownUp])
      else if priceDown ∧ volDown then (1/2, [Detail.pvDownDown])
      else (0, []))

/-! ## Chip factors (_analyze_chip_factors / _analyze_us_chip_factors)

The supplied Taiwanese chip bundle is a dict of up to three frames; each is
modelled with its row count and optional columns.  The whole domestic body
runs inside try/except Exception, so a raised KeyError stops the section
sequence and returns the score accumulated by the completed sections. -/

structure InstDF where
  nrows : ℕ
  foreign : Option (List ℚ)
  trust : Option (List ℚ)
deriving DecidableEq

structure MarginDF where
  nrows : ℕ
  quota : Option (List ℚ)
  balance : Option (List ℚ)
deriving DecidableEq

structure DayTradeDF where
  dates : List ℕ
  vol : Option (List ℚ)
deriving DecidableEq

structure ChipData where
  institutional : Option InstDF
  margin : Option MarginDF
  dayTrading : Option DayTradeDF
deriving DecidableEq

/-- insider_trades.sentiment values compared against string literals in the
source, modelled as an enum. -/
inductive Sentiment where
  | bullish
  | bearish
  | neutralS
deriving DecidableEq

/-- recommendations.recommendation values, modelled as an enum
(na covers the N/A default of the source). -/
inductive RecKey where
  | strongBuy
  | buy
  | hold
  | sell
  | strongSell
  | na
deriving DecidableEq

/-- The US chip bundle; every numeric dict .get default of the source is
folded into the field value at construction time. -/
structure USChipData where
  instPercentHeld : ℚ
  instChange : ℚ
  shortPctFloat : ℚ
  shortRatio : ℚ
  shortChangePct : ℚ
  insiderSentiment : Sentiment
  insiderBuyCount : ℕ
  insiderSellCount : ℕ
  recKey : RecKey
  upside : ℚ
deriving DecidableEq

/-- The outcome of the dynamic USStockChipAnalyzer().get_chip_data(ticker)
call performed when scoring a US stock without supplied chip data: none
models a raised exception, otherwise the returned (data, err) pair.  The
environment is an input of the embedding because the call reaches the
network. -/
def USChipFetch : Type := Option (Option USChipData × Option String)

/-- The dynamic chip weight: x1.5 in a bull regime (trend score at least
3), x0.5 in a bear regime (at most -2), x1.0 otherwise. -/
def weightMultiplier (trendScore : ℚ) : ℚ :=
  if trendScore ≥ 3 then 3/2 else if trendScore ≤ -2 then 1/2 else 1

/-- Section 1 of the domestic chip body: institutional 5-day net flow with
the dynamic significance threshold. -/
def chipSecInst (cd : ChipData) (df : DF) (trendScore : ℚ) :
    Except String (ℚ × List Detail) :=
  match cd.institutional with
  | none => Except.ok (0, [])
  | some inst =>
    if inst.nrows = 0 ∨ df.n = 0 then Except.ok (0, [])
    else
      let foreignBuy := match inst.foreign with | some l => (lastK l 5).sum | none => 0
      let trustBuy := match inst.trust with | some l => (lastK l 5).sum | none => 0
      let totalShares :=
        (if inst.foreign.isSome then foreignBuy else 0) +
        (if inst.trust.isSome then trustBuy else 0)
      let totalLots := totalShares / 1000
      let foreignLots := foreignBuy / 1000
      let trustLots := trustBuy / 1000
      (cellE df.close "Close" (-1)).bind fun currentPrice =>
      let buyAmountMillion := |totalLots| * currentPrice * 1000 / 1000000
      (colE df.volume "Volume").bind fun vols =>
      let recentVolume := listMean (lastK vols 5) / 1000
      let volumeRatio := if recentVolume > 0 then |totalLots| / recentVolume else 0
      let isSignificant := buyAmountMillion > 50 ∨ volumeRatio > 15/100
      let baseScore : ℚ :=
        if totalLots > 0 ∧ isSignificant then
          1 + (if foreignLots > 0 ∧ trustLots > 0 then 1/2 else 0)
        else if totalLots < 0 ∧ isSignificant then
          -1 - (if foreignLots < 0 ∧ trustLots < 0 then 1/2 else 0)
        else 0
      let weighted := baseScore * weightMultiplier trendScore
      Except.ok (weighted,
        if baseScore ≠ 0 then
          [Detail.chipInstFlow (totalLots > 0)
            ((foreignLots > 0 ∧ trustLots > 0) ∨ (foreignLots < 0 ∧ trustLots < 0))]
        else [])

/-- Section 2: margin utilisation (no frame access, never raises). -/
def chipSecMargin (cd : ChipData) (trendScore : ℚ) : Except String (ℚ × List Detail) :=
  match cd.margin with
  | none => Except.ok (0, [])
  | some m =>
    if m.nrows = 0 then Except.ok (0, [])
    else
      let quota := cellD m.quota (-1) 0
      let balance := cellD m.balance (-1) 0
      if quota > 0 then
        let util := balance / quota * 100
        if util > 60 then
          let marginWeight : ℚ := if trendScore ≤ -2 then 3/2 else 1
          Except.ok (-1 * marginWeight, [Detail.chipMarginHot util])
        else if util < 20 ∧ trendScore ≥ 1 then
          Except.ok (1/2 * weightMultiplier trendScore, [Detail.chipMarginLow util])
        else Except.ok (0, [])
      else Except.ok (0, [])

/-- Section 3: day-trading share of the last session (duplicate-date
frames use the first matching row, like .loc followed by .iloc[0]). -/
def chipSecDayTrade (cd : ChipData) (df : DF) (trendScore : ℚ) :
    Except String (ℚ × List Detail) :=
  match cd.dayTrading with
  | none => Except.ok (0, [])
  | some dt =>
    if dt.dates.length = 0 ∨ df.n = 0 then Except.ok (0, [])
    else
      let lastDate := pyGetD df.dates (-1) 0
      if lastDate ∈ dt.dates then
        let dtVol := match dt.vol with
          | some l => l.getD (dt.dates.indexOf lastDate) 0
          | none => 0
        (cellE df.volume "Volume" (-1)).map fun totalVol =>
          if totalVol > 0 then
            let rate := dtVol / totalVol * 100
            if rate > 50 then
              (-(1/2) * weightMultiplier trendScore, [Detail.chipDayTradeHigh rate])
            else if rate < 15 ∧ trendScore ≥ 2 then
              (3/10 * weightMultiplier trendScore, [Detail.chipDayTradeLow rate])
            else (0, [])
          else (0, [])
      else Except.ok (0, [])

/-- The backwards streak count loop of section 4 (counts from the most
recent value; a zero value or a sign flip after a started streak stops
the loop). -/
def streakLoop : List ℚ → ℕ × ℕ → ℕ × ℕ
  | [], acc => acc
  | v :: rest, (cb, cs) =>
    if v > 0 then
      if cs > 0 then (cb + 1, cs) else streakLoop rest (cb + 1, cs)
    else if v < 0 then
      if cb > 0 then (cb, cs + 1) else streakLoop rest (cb, cs + 1)
    else (cb, cs)

/-- Section 4: consecutive foreign buy/sell days over the last 10 rows. -/
def chipSecStreak (cd : ChipData) (trendScore : ℚ) : Except String (ℚ × List Detail) :=
  match cd.institutional with
  | none => Except.ok (0, [])
  | some inst =>
    if inst.nrows = 0 then Except.ok (0, [])
    else
      match inst.foreign with
      | none => Except.ok (0, [])
      | some l =>
        let r := streakLoop (lastK l 10).reverse (0, 0)
        if r.1 ≥ 5 then
          Except.ok (1/2 * weightMultiplier trendScore, [Detail.chipStreakBuy r.1])
        else if r.2 ≥ 5 then
          Except.ok (-(1/2) * weightMultiplier trendScore, [Detail.chipStreakSell r.2])
        else Except.ok (0, [])

/-- The try/except Exception around the domestic body: sections run in
order, and a raised exception returns the score accumulated so far. -/
def runTrySections (acc : ℚ × List Detail) :
    List (Except String (ℚ × List Detail)) → ℚ × List Detail
  | [] => acc
  | Except.ok r :: rest => runTrySections (acc.1 + r.1, acc.2 ++ r.2) rest
  | Except.error _ :: _ => acc

/-- The body of _analyze_us_chip_factors after chip data is available
(wrapped in try/except in the source; with the dict defaults folded into
USChipData the body is total). -/
def analyzeUSChipBody (d : USChipData) (trendScore : ℚ) : ℚ × List Detail :=
  let w := weightMultiplier trendScore
  let s1 : ℚ × List Detail :=
    if d.instPercentHeld > 80 then (3/2 * w, [Detail.usInstVeryHigh])
    else if d.instPercentHeld > 60 then (1 * w, [Detail.usInstHigh])
    else if d.instPercentHeld < 20 then (-(1/2) * w, [Detail.usInstLow])
    else (0, [])
  let s2 : ℚ × List Detail :=
    if d.instChange > 5 then (1 * w, [Detail.usInstAdd])
    else if d.instChange < -5 then (-1 * w, [Detail.usInstReduce])
    else (0, [])
  let s3 : ℚ × List Detail :=
    if d.shortPctFloat > 20 ∧ trendScore ≥ 2 then (1 * w, [Detail.usShortSqueeze])
    else if d.shortPctFloat > 10 then (0, [Detail.usShortInfo])
    else (0, [])
  let s4 : ℚ × List Detail :=
    if d.shortRatio > 5 ∧ trendScore ≥ 1 then (1/2 * w, [Detail.usShortRatioHigh])
    else (0, [])
  let s5 : ℚ × List Detail :=
    if d.shortChangePct < -20 then (1/2 * w, [Detail.usShortCover])
    else if d.shortChangePct > 20 then (-(1/2) * w, [Detail.usShortIncrease])
    else (0, [])
  let s6 : ℚ × List Detail :=
    if d.insiderSentiment = Sentiment.bullish ∧ d.insiderBuyCount > 3 then
      (3/2 * w, [Detail.usInsiderStrongBuy])
    else if d.insiderSentiment = Sentiment.bullish then (1/2 * w, [Detail.usInsiderBuy])
    else if d.insiderSentiment = Sentiment.bearish ∧ d.insiderSellCount > 5 then
      (-(3/2) * w, [Detail.usInsiderStrongSell])
    else if d.insiderSentiment = Sentiment.bearish then (-(1/2) * w, [Detail.usInsiderSell])
    else (0, [])
  let s7 : ℚ × List Detail :=
    if (d.recKey = RecKey.strongBuy ∨ d.recKey = RecKey.buy) ∧ d.upside > 20 then
      (1 * w, [Detail.usAnalystBuy])
    else if d.recKey = RecKey.sell ∨ d.recKey = RecKey.strongSell then
      (-1 * w, [Detail.usAnalystSell])
    else if d.upside > 30 then (1/2 * w, [Detail.usAnalystUpside])
    else if d.upside < -10 then (-(1/2) * w, [Detail.usAnalystDownside])
    else (0, [])
  (s1.1 + s2.1 + s3.1 + s4.1 + s5.1 + s6.1 + s7.1,
   s1.2 ++ s2.2 ++ s3.2 ++ s4.2 ++ s5.2 ++ s6.2 ++ s7.2)

/-- The TechnicalAnalyzer state the scorers read: the ticker, the US flag
computed in the constructor, and the two optional chip bundles. -/
structure Analyzer where
  ticker : String
  isUSStock : Bool
  chipData : Option ChipData
  usChipData : Option USChipData
deriving DecidableEq

/-- TechnicalAnalyzer.__init__: the US flag is derived from the ticker. -/
def mkAnalyzer (ticker : String) (chip : Option ChipData) (usChip : Option USChipData) :
    Analyzer :=
  ⟨ticker, detectUSStock ticker, chip, usChip⟩

/-- _analyze_us_chip_factors: with no supplied chip data the analyzer
dynamically fetches from the environment and stores the result in
self.us_chip_data (the returned Option USChipData is the new field value,
the Bool flags that the external call happened).  A raised fetch is caught
and leaves the field unchanged; a fetch error or empty result scores 0
with an informational detail. -/
def analyzeUSChipFactors (a : Analyzer) (env : USChipFetch) (trendScore : ℚ) :
    (ℚ × List Detail) × Option USChipData × Bool :=
  match a.usChipData with
  | some d => (analyzeUSChipBody d trendScore, some d, false)
  | none =>
    match env with
    | none => ((0, []), none, true)
    | some (dataOpt, errOpt) =>
      if errOpt.isSome ∨ dataOpt.isNone then ((0, [Detail.usNoData]), dataOpt, true)
      else
        match dataOpt with
        | some d => (analyzeUSChipBody d trendScore, some d, true)
        | none => ((0, [Detail.usNoData]), none, true)

/-- _analyze_chip_factors: the US branch delegates; the domestic branch
requires a truthy chip bundle and runs its four try-guarded sections. -/
def analyzeChipFactors (a : Analyzer) (env : USChipFetch) (df : DF) (trendScore : ℚ) :
    (ℚ × List Detail) × Option USChipData × Bool :=
  if a.isUSStock then analyzeUSChipFactors a env trendScore
  else
    match a.chipData with
    | none => ((0, []), a.usChipData, false)
    | some cd =>
      (runTrySections (0, [])
        [chipSecInst cd df trendScore, chipSecMargin cd trendScore,
         chipSecDayTrade cd df trendScore, chipSecStreak cd trendScore],
       a.usChipData, false)

/-! ## _calculate_trend_score -/

/-- Weekly factor 1, the MA stack.  MA60 is only read when Close is
strictly above or strictly below MA20, exactly as the short-circuit
evaluation of the source conditions does. -/
def trendFactorMA (df : DF) : Except String (ℚ × List Detail) :=
  (cellE df.close "Close" (-1)).bind fun close =>
  (cellE df.ma20 "MA20" (-1)).bind fun ma20 =>
  if close > ma20 then
    (cellE df.ma60 "MA60" (-1)).map fun ma60 =>
      if ma20 > ma60 then ((2 : ℚ), [Detail.maBullStack]) else (1, [Detail.maAboveW])
  else if close < ma20 then
    (cellE df.ma60 "MA60" (-1)).map fun ma60 =>
      if ma20 < ma60 then ((-2 : ℚ), [Detail.maBearStack]) else (0, [Detail.maTangled])
  else Except.ok (0, [Detail.maTangled])

/-- Weekly factor 2, DMI trend strength (the DI columns are only read when
ADX exceeds 25). -/
def trendFactorDMI (df : DF) : Except String (ℚ × List Detail) :=
  (cellE df.adx "ADX" (-1)).bind fun adx =>
  if adx > 25 then
    (cellE df.pdi "+DI" (-1)).bind fun pdi =>
    (cellE df.mdi "-DI" (-1)).map fun mdi =>
      if pdi > mdi then ((1 : ℚ), [Detail.dmiBullW adx]) else (-1, [Detail.dmiBearW adx])
  else Except.ok (0, [Detail.dmiUnclear adx])

/-- Weekly factor 3, OBV momentum over 5 weeks; the whole factor sits in
try/except (KeyError, IndexError), so an absent OBV column skips it (the
index -5 is in range because the caller guarantees at least 5 rows). -/
def trendFactorOBV (df : DF) : ℚ × List Detail :=
  match df.obv with
  | none => (0, [])
  | some l =>
    if pyGetD l (-1) 0 > pyGetD l (-5) 0 then (1, [Detail.obvUp5w])
    else (0, [Detail.obvDownW])

/-- Weekly factor 4, the EFI sign (read with a .get default of 0). -/
def trendFactorEFI (df : DF) : ℚ × List Detail :=
  let efi := cellD df.efi (-1) 0
  if efi > 0 then (1, [Detail.efiBullW efi]) else (-1, [Detail.efiBearW efi])

/-- Weekly factor 5, morphology in try/except Exception; the messages get
the weekly prefix only when the morphology score is nonzero. -/
def trendFactorMorph (df : DF) : ℚ × List Detail :=
  match detectMorphology df with
  | Except.ok r =>
    (r.1, if r.1 ≠ 0 then r.2.map Detail.weekly else r.2.map Detail.morph)
  | Except.error _ => (0, [])

/-- _calculate_trend_score: neutral on fewer than 5 weekly bars, else the
six factors in source order (price-volume errors are not caught). -/
def calculateTrendScore (df : DF) : Except String (ℚ × List Detail) :=
  if df.n = 0 ∨ df.n < 5 then Except.ok (0, [Detail.insufficientData])
  else
    (trendFactorMA df).bind fun f1 =>
    (trendFactorDMI df).bind fun f2 =>
    let f3 := trendFactorOBV df
    let f4 := trendFactorEFI df
    let f5 := trendFactorMorph df
    (analyzePriceVolume df).map fun f6 =>
    (f1.1 + f2.1 + f3.1 + f4.1 + f5.1 + f6.1,
     f1.2 ++ f2.2 ++ f3.2 ++ f4.2 ++ f5.2 ++ f6.2)

/-! ## _calculate_trigger_score -/

/-- Daily factor 1, position against MA20. -/
def triggerFactorMA (df : DF) : Except String (ℚ × List Detail) :=
  (cellE df.close "Close" (-1)).bind fun close =>
  (cellE df.ma20 "MA20" (-1)).map fun ma20 =>
  if close > ma20 then ((1 : ℚ), [Detail.maAboveD]) else (-1, [Detail.maBelowD])

/-- Daily factor 2, the BIAS band (a .get default of 0). -/
def triggerFactorBias (df : DF) : ℚ × List Detail :=
  let bias := cellD df.bias (-1) 0
  if 0 < bias ∧ bias < 10 then (1, [Detail.biasHealthy bias])
  else if bias > 10 then (-1, [Detail.biasHot bias])
  else if bias < -10 then (1, [Detail.biasCold bias])
  else (0, [])

/-- Daily factor 3, EFI sign with the 1-day acceleration bonus. -/
def triggerFactorEFI (df : DF) : ℚ × List Detail :=
  let efi := cellD df.efi (-1) 0
  if efi > 0 then
    if efi > cellD df.efi (-2) 0 then (3/2, [Detail.efiBullD, Detail.efiStrongerD])
    else (1, [Detail.efiBullD])
  else (-1, [Detail.efiBearD])

/-- The three-tier divergence bonus for MACD and OBV. -/
def divDelta (mk : DivSignal → Detail) : Option DivSignal → ℚ × List Detail
  | some DivSignal.bullStrong => (3, [mk DivSignal.bullStrong])
  | some DivSignal.bull => (2, [mk DivSignal.bull])
  | some DivSignal.bullWeak => (1, [mk DivSignal.bullWeak])
  | some DivSignal.bearStrong => (-3, [mk DivSignal.bearStrong])
  | some DivSignal.bear => (-2, [mk DivSignal.bear])
  | some DivSignal.bearWeak => (-1, [mk DivSignal.bearWeak])
  | none => (0, [])

/-- Daily factor 4, MACD histogram sign, acceleration bonus and the MACD
divergence bonus. -/
def triggerFactorMACD (df : DF) : Except String (ℚ × List Detail) :=
  (colE df.hist "Hist").bind fun hl =>
  let hist := pyGetD hl (-1) 0
  let base : ℚ × List Detail :=
    if hist > 0 then
      (if hist > pyGetD hl (-2) 0 then
        (3/2, [Detail.macdRed, Detail.macdStrongerD])
       else (1, [Detail.macdRed]))
    else (-1, [Detail.macdGreen])
  (detectDivergence df df.macd 40).map fun dsig =>
  let dd := divDelta Detail.divMacd dsig
  (base.1 + dd.1, base.2 ++ dd.2)

/-- Daily factor 5, the KD cross. -/
def triggerFactorKD (df : DF) : Except String (ℚ × List Detail) :=
  (cellE df.k "K" (-1)).bind fun kv =>
  (cellE df.d "D" (-1)).map fun dv =>
  if kv > dv then ((1 : ℚ), [Detail.kdGold]) else (-1, [Detail.kdDead])

/-- Daily factor 6, 3-day OBV momentum plus the OBV divergence bonus. -/
def triggerFactorOBV (df : DF) : Except String (ℚ × List Detail) :=
  (if df.n ≥ 3 then
    (cellE df.obv "OBV" (-1)).bind fun cur =>
    (cellE df.obv "OBV" (-3)).map fun ago =>
    (if cur > ago then ((1 : ℚ), [Detail.obvIn3d]) else (0, []))
   else Except.ok (0, [])).bind fun base =>
  (detectDivergence df df.obv 40).map fun dsig =>
  let dd := divDelta Detail.divObv dsig
  (base.1 + dd.1, base.2 ++ dd.2)

/-- Daily factor 7, short-term DMI (the DI columns are only read when ADX
exceeds 25). -/
def triggerFactorDMI (df : DF) : Except String (ℚ × List Detail) :=
  (cellE df.adx "ADX" (-1)).bind fun adx =>
  if adx > 25 then
    (cellE df.pdi "+DI" (-1)).bind fun pdi =>
    (cellE df.mdi "-DI" (-1)).map fun mdi =>
      if pdi > mdi then ((1 : ℚ), [Detail.dmiBullD adx]) else (-1, [Detail.dmiBearD adx])
  else Except.ok (0, [])

/-- The RSI divergence bonus of daily factor 8 (hidden divergences are
ignored here). -/
def rsiDelta : Option DivSignal → ℚ × List Detail
  | some DivSignal.bullStrong => (3/2, [Detail.rsiBullDiv true])
  | some DivSignal.bull => (1, [Detail.rsiBullDiv false])
  | some DivSignal.bearStrong => (-(3/2), [Detail.rsiBearDiv true])
  | some DivSignal.bear => (-1, [Detail.rsiBearDiv false])
  | _ => (0, [])

/-- Daily factor 12, the TD-sequential (magic nine turns) bonus: a count
of exactly 9 adds +2 (buy) or -2 (sell); a count of exactly 8 appends a
detail whose source text announces +0.5 / -0.5, but the source performs no
score update in that branch, so the score delta is 0. -/
def tdSequentialBonus (tdBuy tdSell : ℚ) : ℚ × List Detail :=
  let b : ℚ × List Detail :=
    if tdBuy = 9 then (2, [Detail.td9Buy])
    else if tdBuy = 8 then (0, [Detail.td8Buy])
    else (0, [])
  let s : ℚ × List Detail :=
    if tdSell = 9 then (-2, [Detail.td9Sell])
    else if tdSell = 8 then (0, [Detail.td8Sell])
    else (0, [])
  (b.1 + s.1, b.2 ++ s.2)

/-- Daily factors 1-12 of _calculate_trigger_score, in source order, before
the chip factors. -/
def triggerFactors (df : DF) : Except String (ℚ × List Detail) :=
  (triggerFactorMA df).bind fun f1 =>
  let f2 := triggerFactorBias df
  let f3 := triggerFactorEFI df
  (triggerFactorMACD df).bind fun f4 =>
  (triggerFactorKD df).bind fun f5 =>
  (triggerFactorOBV df).bind fun f6 =>
  (triggerFactorDMI df).bind fun f7 =>
  (detectDivergence df df.rsi 40).bind fun rsig =>
  let f8 := rsiDelta rsig
  (detectKlinePatterns df).bind fun kl =>
  let f9 : ℚ × List Detail := (kl.1, kl.2.map Detail.kline)
  let f10 : ℚ × List Detail :=
    match detectMorphology df with
    | Except.ok r => (r.1, r.2.map Detail.morph)
    | Except.error _ => (0, [])
  (analyzePriceVolume df).map fun f11 =>
  let f12 := tdSequentialBonus (cellD df.tdBuy (-1) 0) (cellD df.tdSell (-1) 0)
  (f1.1 + f2.1 + f3.1 + f4.1 + f5.1 + f6.1 + f7.1 + f8.1 + f9.1 + f10.1 + f11.1 + f12.1,
   f1.2 ++ f2.2 ++ f3.2 ++ f4.2 ++ f5.2 ++ f6.2 ++ f7.2 ++ f8.2 ++ f9.2 ++ f10.2 ++
     f11.2 ++ f12.2)

/-- _calculate_trigger_score: neutral on fewer than 20 daily bars, else
the twelve technical factors followed by the chip factors.  The result
also carries the analyzer field self.us_chip_data after the call and
whether an external chip fetch happened (both can change only through
the chip factors of a US stock). -/
def calculateTriggerScore (a : Analyzer) (env : USChipFetch) (df : DF) (trendScore : ℚ) :
    Except String (ℚ × List Detail) × Option USChipData × Bool :=
  if df.n = 0 ∨ df.n < 20 then (Except.ok (0, [Detail.insufficientData]), a.usChipData, false)
  else
    match triggerFactors df with
    | Except.error e => (Except.error e, a.usChipData, false)
    | Except.ok r =>
      let c := analyzeChipFactors a env df trendScore
      (Except.ok (r.1 + c.1.1, r.2 ++ c.1.2), c.2.1, c.2.2)

/-! ## _determine_scenario -/

structure Scenario where
  code : String
  title : String
  color : String
  desc : String
deriving DecidableEq

/-- _determine_scenario: the neutral default dict (code N) is always
overwritten, because the if/elif/else chain covers every trend score:
A for at least 3, B on [1, 3), C on [-2, 0], D otherwise.  The daily
details argument is accepted and ignored, as in the source. -/
def determineScenario (trendScore : ℚ) (dailyDetails : List Detail) : Scenario :=
  if trendScore ≥ 3 then
    ⟨"A", "🔥 劇本 A：強力進攻", "red", "週線強多 + 日線訊號佳，順勢重倉。"⟩
  else if 1 ≤ trendScore ∧ trendScore < 3 then
    ⟨"B", "⏳ 劇本 B：拉回關注", "orange", "長線多頭，短線震盪。等待止穩。"⟩
  else if -2 ≤ trendScore ∧ trendScore ≤ 0 then
    ⟨"C", "⚠️ 劇本 C：反彈搶短", "blue", "逆勢操作，嚴設停損。"⟩
  else
    ⟨"D", "🛑 劇本 D：空手/做空", "green", "趨勢向下，切勿摸底。"⟩

/-! ## _generate_action_plan -/

/-- Python round(x, 2): round half to even at two decimals (the source
rounds a float; the model rounds the exact rational). -/
def roundHalfEven (x : ℚ) : ℤ :=
  let fl := ⌊x⌋
  let frac := x - fl
  if frac < 1/2 then fl
  else if frac > 1/2 then fl + 1
  else if fl % 2 = 0 then fl else fl + 1

def pyRound2 (x : ℚ) : ℚ := (roundHalfEven (x * 100) : ℚ) / 100

/-- The four stop-loss candidate methods (A-D in the source list). -/
inductive SLMethod where
  | atrStop
  | maStop
  | keyCandle
  | swingLow
deriving DecidableEq

structure SLItem where
  method : SLMethod
  price : ℚ
  broken : Bool
  loss : ℚ
deriving DecidableEq

/-- The take-profit candidate methods. -/
inductive TPMethod where
  | nMeasure
  | fib1618
  | ma60R
  | ma120R
  | ma240R
  | bollUp
  | prevHigh
  | defaultTp
deriving DecidableEq

structure TPItem where
  method : TPMethod
  price : ℚ
  isRec : Bool
deriving DecidableEq

/-- The recommended stop method of the returned plan (the source maps its
internal strings onto the two UI strings; N/A of the early return is
modelled by none at the plan level). -/
inductive RecSL where
  | atrStop
  | swingLow
deriving DecidableEq

/-- The strategy_text variants. -/
inductive StratText where
  | watchInit
  | aiBuy
  | aiSell
  | strongPullback
  | activeEntry
  | waitSignal
  | rebound
  | standAside
  | watchSplit
deriving DecidableEq

/-- The rec_entry_desc variants (emptyDesc is the literal empty string of
the non-actionable return). -/
inductive EntryDesc where
  | watch
  | aiSignal
  | pullback5
  | active5
  | support
  | reboundZone
  | emptyDesc
deriving DecidableEq

/-- The optional optimizer thresholds (self.strategy_params with dict
defaults buy=3, sell=-2). -/
structure StrategyParams where
  buy : Option ℚ
  sell : Option ℚ
deriving DecidableEq

/-- The actionability decision of steps 1 of _generate_action_plan:
optimizer override first, else the scenario intent.  slSwing records the
scenario-C override of the recommended stop method. -/
structure EntryDecision where
  optimizerActive : Bool
  isActionable : Bool
  code : String
  strategy : StratText
  entryLow : ℚ
  entryHigh : ℚ
  entryDesc : EntryDesc
  entryBasis : ℚ
  slSwing : Bool
deriving DecidableEq

/-- The scenario-intent branch (runs only when the optimizer is not
active). -/
def scenarioIntent (code : String) (closePrice ma5 ma10 ma20 ma60 bbLo slLow : ℚ) :
    EntryDecision :=
  if code = "A" then
    if closePrice > ma5 * (105/100) then
      ⟨false, true, code, StratText.strongPullback, ma10, ma5, EntryDesc.pullback5, ma5, false⟩
    else
      ⟨false, true, code, StratText.activeEntry, ma5, closePrice, EntryDesc.active5,
        closePrice, false⟩
  else if code = "B" then
    let support := if ma60 < ma20 then ma60 else ma20
    ⟨false, true, code, StratText.waitSignal, support * (98/100), support * (102/100),
      EntryDesc.support, support, false⟩
  else if code = "C" then
    ⟨false, true, code, StratText.rebound, slLow * (99/100),
      (if bbLo > slLow then bbLo else slLow * (102/100)), EntryDesc.reboundZone,
      (if bbLo > slLow then bbLo else slLow * (102/100)), true⟩
  else if code = "D" then
    ⟨false, false, code, StratText.standAside, 0, 0, EntryDesc.watch, closePrice, false⟩
  else
    ⟨false, false, code, StratText.watchSplit, 0, 0, EntryDesc.watch, closePrice, false⟩

/-- Steps 1 of _generate_action_plan: the optimizer override (buy: force
actionable with scenario-A semantics at the current price band; sell:
force not actionable with code D) and otherwise the scenario intent. -/
def entryDecision (sp : Option StrategyParams) (code : String) (triggerScore : ℚ)
    (closePrice ma5 ma10 ma20 ma60 bbLo slLow : ℚ) : EntryDecision :=
  match sp with
  | some p =>
    if triggerScore ≥ p.buy.getD 3 then
      ⟨true, true, "A", StratText.aiBuy, closePrice * (99/100), closePrice * (101/100),
        EntryDesc.aiSignal, closePrice, false⟩
    else if triggerScore ≤ p.sell.getD (-2) then
      ⟨true, false, "D", StratText.aiSell, 0, 0, EntryDesc.watch, closePrice, false⟩
    else scenarioIntent code closePrice ma5 ma10 ma20 ma60 bbLo slLow
  | none => scenarioIntent code closePrice ma5 ma10 ma20 ma60 bbLo slLow

/-- Stable insertion into a descending-by-key list, ties keeping the
earlier element first (Python list.sort(key, reverse=True)). -/
def insertDescBy {α : Type} (key : α → ℚ) (x : α) : List α → List α
  | [] => [x]
  | y :: ys => if key x > key y then x :: y :: ys else y :: insertDescBy key x ys

def stableSortDescBy {α : Type} (key : α → ℚ) (l : List α) : List α :=
  l.foldl (fun acc x => insertDescBy key x acc) []

/-- Stable insertion into an ascending-by-key list (Python
list.sort(key)). -/
def insertAscBy {α : Type} (key : α → ℚ) (x : α) : List α → List α
  | [] => [x]
  | y :: ys => if key x < key y then x :: y :: ys else y :: insertAscBy key x ys

def stableSortAscBy {α : Type} (key : α → ℚ) (l : List α) : List α :=
  l.foldl (fun acc x => insertAscBy key x acc) []

/-- The always-computed stop-candidate list: keep candidates with a
positive price, annotate the loss percentage against the entry basis
(rounded to two decimals) and whether the level is already broken, then
stable-sort by price descending. -/
def buildSlList (entryBasis slAtr slMa slKey slLow : ℚ) : List SLItem :=
  let cands : List (SLMethod × ℚ) :=
    [(SLMethod.atrStop, slAtr), (SLMethod.maStop, slMa),
     (SLMethod.keyCandle, slKey), (SLMethod.swingLow, slLow)]
  let kept := (cands.filter (fun c => decide (c.2 > 0))).map (fun c =>
    let diff := c.2 - entryBasis
    ⟨c.1, c.2, diff > 0, pyRound2 (diff / entryBasis * 100)⟩)
  stableSortDescBy (fun it : SLItem => it.price) kept

/-- The full result record of _generate_action_plan, extended with the two
internal values (entry basis and the effective scenario code) that the
risk-reward and target selection depend on.  On the non-actionable early
return the source dict carries no rr_ratio key; every consumer reads it
with .get(rr_ratio, 0), so the absent key is modelled as the value 0. -/
structure PlanCore where
  currentPrice : ℚ
  strategy : StratText
  isActionable : Bool
  recEntryLow : ℚ
  recEntryHigh : ℚ
  recEntryDesc : EntryDesc
  recSlMethod : Option RecSL
  recSlPrice : ℚ
  recTpPrice : ℚ
  rrRatio : ℚ
  tpList : List TPItem
  slList : List SLItem
  slAtr : ℚ
  slMa : ℚ
  slKeyCandle : ℚ
  slLow : ℚ
  entryBasis : ℚ
  code : String
deriving DecidableEq

/-- The risk-reward computation of _generate_action_plan on the actionable
path (is_actionable is true there): the guard demands a positive entry
basis and a positive recommended stop, and the ratio is written only when
the potential risk (the denominator) is positive. -/
def rrOf (eb sl tp : ℚ) : ℚ :=
  if eb > 0 ∧ sl > 0 then (if eb - sl > 0 then (tp - eb) / (eb - sl) else 0) else 0

/-- _generate_action_plan: none on fewer than 20 bars; Close and Low are
accessed directly everywhere, High only on the actionable path. -/
def generateActionPlan (sp : Option StrategyParams) (df : DF) (scenario : Scenario)
    (triggerScore : ℚ) : Except String (Option PlanCore) :=
  if df.n = 0 ∨ df.n < 20 then Except.ok none
  else
    (colE df.close "Close").bind fun closes =>
    let closePrice := pyGetD closes (-1) 0
    let ma5 := cellD df.ma5 (-1) 0
    let ma10 := cellD df.ma10 (-1) 0
    let ma20 := cellD df.ma20 (-1) 0
    let ma60 := cellD df.ma60 (-1) 0
    let atrVal := cellD df.atr (-1) 0
    (colE df.low "Low").bind fun lows =>
    let slLow := lastKMin lows 20
    let slMa := ma20
    let slKey := slLow
    let slAtr := if atrVal > 0 then closePrice - 2 * atrVal else closePrice * (9/10)
    let slKeyCandle := slLow
    let bbLo := cellD df.bbLo (-1) 0
    let dec := entryDecision sp scenario.code triggerScore closePrice ma5 ma10 ma20 ma60
      bbLo slLow
    let finalSlList := buildSlList dec.entryBasis slAtr slMa slKey slLow
    if ¬dec.isActionable then
      Except.ok (some
        ⟨closePrice, dec.strategy, false, 0, 0, EntryDesc.emptyDesc, none, 0, 0, 0,
         [], finalSlList, slAtr, slMa, slKeyCandle, slLow, dec.entryBasis, dec.code⟩)
    else
      let recSlPrice := if atrVal > 0 then dec.entryBasis - 2 * atrVal
                        else dec.entryBasis * (9/10)
      let recSlMethod := if dec.slSwing then RecSL.swingLow else RecSL.atrStop
      (colE df.high "High").map fun highs =>
      let recentHigh20 := lastKMax highs 20
      let recentLow20 := lastKMin lows 20
      let waveHeight := recentHigh20 - recentLow20
      let bbUp := cellD df.bbUp (-1) 0
      let ma60b := cellD df.ma60 (-1) 0
      let ma120 := cellD df.ma120 (-1) 0
      let ma240 := cellD df.ma240 (-1) 0
      let tpCands : List (TPMethod × ℚ) :=
        [(TPMethod.nMeasure, dec.entryBasis + waveHeight),
         (TPMethod.fib1618, dec.entryBasis + waveHeight * (1618/1000))] ++
        (if ma60b > dec.entryBasis then [(TPMethod.ma60R, ma60b)] else []) ++
        (if ma120 > dec.entryBasis then [(TPMethod.ma120R, ma120)] else []) ++
        (if ma240 > dec.entryBasis then [(TPMethod.ma240R, ma240)] else []) ++
        (if bbUp > dec.entryBasis then [(TPMethod.bollUp, bbUp)] else []) ++
        (if recentHigh20 > dec.entryBasis then [(TPMethod.prevHigh, recentHigh20)] else [])
      let validCands := stableSortAscBy (fun c : TPMethod × ℚ => c.2)
        (tpCands.filter (fun c => decide (c.2 > dec.entryBasis * (102/100))))
      let recMethod : Option TPMethod :=
        if dec.code = "A" then
          match validCands.find? (fun c => c.1 = TPMethod.fib1618) with
          | some _ => some TPMethod.fib1618
          | none =>
            match validCands.find? (fun c => c.1 = TPMethod.nMeasure) with
            | some _ => some TPMethod.nMeasure
            | none => none
        else if dec.code = "B" then
          (validCands.find? (fun c => c.1 = TPMethod.bollUp)).map (fun _ => TPMethod.bollUp)
        else none
      let finalTpList0 := validCands.map (fun c =>
        (⟨c.1, c.2, recMethod = some c.1⟩ : TPItem))
      let recTpPrice0 := (finalTpList0.foldl
        (fun acc it => if it.isRec then it.price else acc) 0)
      let withFallback : List TPItem × ℚ :=
        if finalTpList0 = [] then
          ([⟨TPMethod.defaultTp, dec.entryBasis * (11/10), true⟩],
           dec.entryBasis * (11/10))
        else if ¬finalTpList0.any (fun it => it.isRec) then
          (match finalTpList0 with
           | [] => ([], recTpPrice0)
           | it :: rest => (⟨it.method, it.price, true⟩ :: rest, it.price))
        else (finalTpList0, recTpPrice0)
      some ⟨closePrice, dec.strategy, true, dec.entryLow, dec.entryHigh, dec.entryDesc,
        some recSlMethod, recSlPrice, withFallback.2,
        rrOf dec.entryBasis recSlPrice withFallback.2, withFallback.1,
        finalSlList, slAtr, slMa, slKey, slLow, dec.entryBasis, dec.code⟩

/-! ## Evaluation helpers and concrete frames -/

theorem getD_replicate {α : Type} (k i : ℕ) (v d : α) (h : i < k) :
    (List.replicate k v).getD i d = v := by
  induction k generalizing i with
  | zero => omega
  | succ m ih =>
    cases i with
    | zero => rfl
    | succ j => simpa [List.replicate] using ih j (by omega)

theorem pyGetD_replicate_neg {α : Type} (k : ℕ) (v d : α) (i : Int)
    (h1 : i < 0) (h2 : (-i).toNat ≤ k) : pyGetD (List.replicate k v) i d = v := by
  rw [pyGetD, if_pos h1]
  simp only [List.length_replicate]
  exact getD_replicate k _ v d (by omega)

theorem lastK_replicate {α : Type} (k j : ℕ) (v : α) :
    lastK (List.replicate k v) j = List.replicate (min j k) v := by
  rw [lastK]
  simp [List.drop_replicate]
  omega

theorem listMean_replicate (k : ℕ) (v : ℚ) (h : k ≠ 0) :
    listMean (List.replicate k v) = v := by
  rw [listMean, List.sum_replicate, List.length_replicate, nsmul_eq_mul, mul_comm,
    mul_div_assoc, div_self (Nat.cast_ne_zero.2 h), mul_one]

theorem pyGetD_append_last {α : Type} (l : List α) (x d : α) :
    pyGetD (l ++ [x]) (-1) d = x := by
  rw [pyGetD, if_pos (by omega)]
  simp

/-- A constant column of k rows. -/
def constCol (k : ℕ) (v : ℚ) : Option (List ℚ) := some (List.replicate k v)

/-- A two-bar weekly frame (no indicator columns are touched because the
insufficient-data guard fires first). -/
def dfW2 : DF :=
  { n := 2, dates := [0, 1], opn := none, high := none, low := none, close := none,
    volume := none, ma5 := none, ma10 := none, ma20 := none, ma60 := none,
    ma120 := none, ma240 := none, bias := none, efi := none, hist := none,
    macd := none, k := none, d := none, obv := none, adx := none, pdi := none,
    mdi := none, rsi := none, bbLo := none, bbUp := none, atr := none,
    tdBuy := none, tdSell := none, pattern := none }

/-- A 20-bar daily frame with every scored column present; all values are
flat so that only the MA factor (+1), the EFI sign (-1), the MACD sign
(-1) and the KD cross (-1) fire, and the TD buy-setup counter of the last
bar is the parameter. -/
def dfT20 (td : ℚ) : DF :=
  { n := 20, dates := List.range 20,
    opn := constCol 20 10, high := constCol 20 10, low := constCol 20 10,
    close := constCol 20 10, volume := constCol 20 100,
    ma5 := constCol 20 10, ma10 := constCol 20 10, ma20 := constCol 20 9,
    ma60 := constCol 20 9, ma120 := constCol 20 9, ma240 := constCol 20 9,
    bias := constCol 20 0, efi := constCol 20 0, hist := constCol 20 0,
    macd := constCol 20 0, k := constCol 20 50, d := constCol 20 50,
    obv := constCol 20 0, adx := constCol 20 20, pdi := constCol 20 0,
    mdi := constCol 20 0, rsi := constCol 20 50, bbLo := constCol 20 0,
    bbUp := constCol 20 0, atr := constCol 20 0,
    tdBuy := some (List.replicate 19 0 ++ [td]), tdSell := constCol 20 0,
    pattern := none }

/-- A domestic analyzer with no chip data (ticker 2330 is digits only, so
not a US stock). -/
def a2330 : Analyzer := mkAnalyzer "2330" none none

theorem detectUSStock_2330 : detectUSStock "2330" = false := by decide

theorem a2330_eq : a2330 = ⟨"2330", false, none, none⟩ := by
  rw [a2330, mkAnalyzer, detectUSStock_2330]

/-! ## Claims about scenario classification (C1) -/

/-- C1 as stated is false at a weekly series with fewer than 5 bars: the
trend score defaults to 0 and the scenario classifier, whose if/elif/else
chain covers every score, returns code C (the code N of the initial dict
is always overwritten), not code N. -/
theorem scenario_N_counterexample :
    calculateTrendScore dfW2 = Except.ok (0, [Detail.insufficientData]) ∧
    (determineScenario 0 []).code = "C" ∧
    ("C" : String) ≠ "N" := by
  refine ⟨?_, ?_, by decide⟩
  · rw [calculateTrendScore, if_pos (by norm_num [dfW2])]
  · rw [determineScenario, if_neg (by norm_num), if_neg (by norm_num),
      if_pos (by norm_num)]

/-- C1 amended: the scenario classification is a total function of the
trend score with code A iff at least 3, B iff in [1, 3), C iff in [-2, 0]
and D otherwise; code N is never returned; a weekly series with fewer than
5 bars scores 0 and is therefore classified C. -/
theorem scenario_partition (t : ℚ) (dd : List Detail) :
    ((determineScenario t dd).code = "A" ↔ 3 ≤ t) ∧
    ((determineScenario t dd).code = "B" ↔ 1 ≤ t ∧ t < 3) ∧
    ((determineScenario t dd).code = "C" ↔ -2 ≤ t ∧ t ≤ 0) ∧
    ((determineScenario t dd).code = "D" ↔ (t < -2 ∨ (0 < t ∧ t < 1))) ∧
    (determineScenario t dd).code ≠ "N" ∧
    (∀ df : DF, df.n < 5 →
      calculateTrendScore df = Except.ok (0, [Detail.insufficientData]) ∧
      (determineScenario 0 dd).code = "C") := by
  have hdf : ∀ df : DF, df.n < 5 →
      calculateTrendScore df = Except.ok (0, [Detail.insufficientData]) := by
    intro df h
    rw [calculateTrendScore, if_pos (by omega)]
  rw [determineScenario]
  by_cases h1 : t ≥ 3
  · rw [if_pos h1]
    refine ⟨by simpa using h1, ?_, ?_, ?_, by decide, ?_⟩
    · constructor
      · intro h; exact absurd h (by decide)
      · intro h; linarith
    · constructor
      · intro h; exact absurd h (by decide)
      · intro h; linarith
    · constructor
      · intro h; exact absurd h (by decide)
      · intro h; rcases h with h | h <;> linarith
    · intro df hn
      refine ⟨hdf df hn, ?_⟩
      rw [determineScenario, if_neg (by norm_num), if_neg (by norm_num),
        if_pos (by norm_num)]
  · rw [if_neg h1]
    by_cases h2 : 1 ≤ t ∧ t < 3
    · rw [if_pos h2]
      refine ⟨?_, by simpa using h2, ?_, ?_, by decide, ?_⟩
      · constructor
        · intro h; exact absurd h (by decide)
        · intro h; linarith
      · constructor
        · intro h; exact absurd h (by decide)
        · intro h; obtain ⟨hl, hr⟩ := h; obtain ⟨h2l, h2r⟩ := h2; linarith
      · constructor
        · intro h; exact absurd h (by decide)
        · intro h; obtain ⟨h2l, h2r⟩ := h2
          rcases h with h | ⟨ha, hb⟩ <;> linarith
      · intro df hn
        refine ⟨hdf df hn, ?_⟩
        rw [determineScenario, if_neg (by norm_num), if_neg (by norm_num),
          if_pos (by norm_num)]
    · rw [if_neg h2]
      by_cases h3 : -2 ≤ t ∧ t ≤ 0
      · rw [if_pos h3]
        refine ⟨?_, ?_, by simpa using h3, ?_, by decide, ?_⟩
        · constructor
          · intro h; exact absurd h (by decide)
          · intro h; linarith
        · constructor
          · intro h; exact absurd h (by decide)
          · intro h; obtain ⟨ha, hb⟩ := h; obtain ⟨h3l, h3r⟩ := h3; linarith
        · constructor
          · intro h; exact absurd h (by decide)
          · intro h; obtain ⟨h3l, h3r⟩ := h3
            rcases h with h | ⟨ha, hb⟩ <;> linarith
        · intro df hn
          refine ⟨hdf df hn, ?_⟩
          rw [determineScenario, if_neg (by norm_num), if_neg (by norm_num),
            if_pos (by norm_num)]
      · rw [if_neg h3]
        push_neg at h2 h3
        refine ⟨?_, ?_, ?_, ?_, by decide, ?_⟩
        · constructor
          · intro h; exact absurd h (by decide)
          · intro h; linarith
        · constructor
          · intro h; exact absurd h (by decide)
          · intro h; obtain ⟨ha, hb⟩ := h; exact absurd (h2 ha) (by linarith)
        · constructor
          · intro h; exact absurd h (by decide)
          · intro h; obtain ⟨ha, hb⟩ := h; exact absurd (h3 ha) (by linarith)
        · constructor
          · intro _
            by_cases hc : t < -2
            · exact Or.inl hc
            · push_neg at hc
              have hb := h3 hc
              have ha : t < 1 := by
                by_contra hcon
                push_neg at hcon
                exact absurd (h2 hcon) (by linarith)
              exact Or.inr ⟨by linarith, ha⟩
          · intro _; rfl
        · intro df hn
          refine ⟨hdf df hn, ?_⟩
          rw [determineScenario, if_neg (by norm_num), if_neg (by norm_num),
            if_pos (by norm_num)]

/-- Witness for the amended C1 theorem at trend score 0 and the two-bar
weekly frame. -/
theorem scenario_partition_witness :
    ((determineScenario 0 []).code = "C" ↔ (-2 : ℚ) ≤ 0 ∧ (0 : ℚ) ≤ 0) ∧
    calculateTrendScore dfW2 = Except.ok (0, [Detail.insufficientData]) := by
  refine ⟨(scenario_partition 0 []).2.2.1, ?_⟩
  exact ((scenario_partition 0 []).2.2.2.2.2 dfW2 (by norm_num [dfW2])).1

/-! ## Claims about the TD-sequential bonus (C7) -/

/-- Evaluation of the trigger score on the flat 20-bar frame for the
domestic analyzer without chip data, with the last TD buy-setup count
left symbolic: only the TD section depends on it. -/
theorem dfT20_trigger (t : ℚ) :
    (calculateTriggerScore a2330 none (dfT20 t) 0).1 =
      Except.ok (-2 + (tdSequentialBonus t 0).1,
        Detail.maAboveD :: Detail.efiBearD :: Detail.macdGreen :: Detail.kdDead ::
          (tdSequentialBonus t 0).2) := by
  norm_num [calculateTriggerScore, dfT20, a2330_eq, triggerFactors,
    triggerFactorMA, triggerFactorBias, triggerFactorEFI, triggerFactorMACD,
    triggerFactorKD, triggerFactorOBV, triggerFactorDMI, rsiDelta, divDelta,
    detectDivergence, detectKlinePatterns, detectMorphology, analyzePriceVolume,
    analyzeChipFactors, cellE, cellD, colE, constCol,
    pyGetD_replicate_neg, pyGetD_append_last, lastK_replicate, listMean_replicate,
    rollMeanLast, List.zipWith_replicate, Except.bind, Except.map]

/-- C7: the TD-sequential section of the daily TriggerScore.  A count of
exactly 9 contributes +2 (buy) and -2 (sell) as claimed; but a count of
exactly 8 contributes nothing to the score: the source only appends a
message whose text announces +0.5 / -0.5, without updating the score, so
the whole trigger score of a frame with a last TD buy count of 8 equals
the score of the same frame with count 0, while the count-8 detail is
appended. -/
theorem td_bonus_evaluation :
    (calculateTriggerScore a2330 none (dfT20 8) 0).1 =
      Except.ok (-2, [Detail.maAboveD, Detail.efiBearD, Detail.macdGreen,
        Detail.kdDead, Detail.td8Buy]) ∧
    (calculateTriggerScore a2330 none (dfT20 0) 0).1 =
      Except.ok (-2, [Detail.maAboveD, Detail.efiBearD, Detail.macdGreen,
        Detail.kdDead]) ∧
    (calculateTriggerScore a2330 none (dfT20 9) 0).1 =
      Except.ok (0, [Detail.maAboveD, Detail.efiBearD, Detail.macdGreen,
        Detail.kdDead, Detail.td9Buy]) ∧
    tdSequentialBonus 8 0 = (0, [Detail.td8Buy]) ∧
    tdSequentialBonus 0 8 = (0, [Detail.td8Sell]) ∧
    tdSequentialBonus 9 0 = (2, [Detail.td9Buy]) ∧
    tdSequentialBonus 0 9 = (-2, [Detail.td9Sell]) := by
  have h8 := dfT20_trigger 8
  have h0 := dfT20_trigger 0
  have h9 := dfT20_trigger 9
  norm_num [tdSequentialBonus] at h8 h0 h9 ⊢
  exact ⟨h8, h0, h9⟩

/-! ## Claims about missing indicator columns (C8) -/

/-- The flat 20-bar frame with the Hist column removed. -/
def dfT20noHist : DF := { dfT20 0 with hist := none }

/-- A flat 5-bar weekly frame with the ADX column removed (Close, MA20,
MA60 present). -/
def dfW5noADX : DF :=
  { n := 5, dates := List.range 5,
    opn := constCol 5 10, high := constCol 5 10, low := constCol 5 10,
    close := constCol 5 10, volume := constCol 5 100,
    ma5 := constCol 5 10, ma10 := constCol 5 10, ma20 := constCol 5 9,
    ma60 := constCol 5 9, ma120 := constCol 5 9, ma240 := constCol 5 9,
    bias := constCol 5 0, efi := constCol 5 0, hist := constCol 5 0,
    macd := constCol 5 0, k := constCol 5 50, d := constCol 5 50,
    obv := constCol 5 0, adx := none, pdi := constCol 5 0,
    mdi := constCol 5 0, rsi := constCol 5 50, bbLo := constCol 5 0,
    bbUp := constCol 5 0, atr := constCol 5 0,
    tdBuy := constCol 5 0, tdSell := constCol 5 0, pattern := none }

/-- C8 as stated is false: one absent directly-indexed column aborts the
whole scoring pass with a KeyError instead of defaulting to 0.  A 20-bar
daily frame without the Hist column makes the trigger scorer raise, and a
5-bar weekly frame without the ADX column makes the trend scorer raise. -/
theorem missing_column_raises :
    (calculateTriggerScore a2330 none dfT20noHist 0).1 = Except.error "Hist" ∧
    calculateTrendScore dfW5noADX = Except.error "ADX" := by
  constructor
  · norm_num [calculateTriggerScore, dfT20noHist, dfT20, triggerFactors,
      triggerFactorMA, triggerFactorBias, triggerFactorEFI, triggerFactorMACD,
      cellE, cellD, colE, constCol, pyGetD_replicate_neg, pyGetD_append_last,
      Except.bind, Except.map]
  · norm_num [calculateTrendScore, dfW5noADX, trendFactorMA, trendFactorDMI,
      cellE, cellD, colE, constCol, pyGetD_replicate_neg,
      Except.bind, Except.map]

theorem bind_ok_ex {α β : Type} {x : Except String α} {f : α → Except String β}
    (hx : ∃ a, x = Except.ok a) (hf : ∀ a, ∃ b, f a = Except.ok b) :
    ∃ b, x.bind f = Except.ok b := by
  obtain ⟨a, ha⟩ := hx
  obtain ⟨b, hb⟩ := hf a
  exact ⟨b, by rw [ha]; simpa [Except.bind] using hb⟩

theorem map_ok_ex {α β : Type} {x : Except String α} {g : α → β}
    (hx : ∃ a, x = Except.ok a) : ∃ b, x.map g = Except.ok b := by
  obtain ⟨a, ha⟩ := hx
  exact ⟨g a, by rw [ha]; rfl⟩

theorem cellE_ok {c : Option (List ℚ)} {l : List ℚ} (h : c = some l)
    (name : String) (i : Int) : ∃ v, cellE c name i = Except.ok v := by
  rw [cellE, h, colE]; exact ⟨_, rfl⟩

theorem colE_ok {c : Option (List ℚ)} {l : List ℚ} (h : c = some l)
    (name : String) : ∃ v, colE c name = Except.ok v := by
  rw [h, colE]; exact ⟨_, rfl⟩

theorem detectDivergence_ok (df : DF) (ind : Option (List ℚ)) (w : ℕ)
    {ll lh : List ℚ} (hl : df.low = some ll) (hh : df.high = some lh) :
    ∃ r, detectDivergence df ind w = Except.ok r := by
  rw [detectDivergence]
  split_ifs
  · exact ⟨_, rfl⟩
  · refine bind_ok_ex (colE_ok hl "Low") (fun a => ?_)
    refine bind_ok_ex (colE_ok hh "High") (fun b => ?_)
    exact ⟨_, rfl⟩

theorem detectKlinePatterns_ok (df : DF) {lc lo lv : List ℚ}
    (hc : df.close = some lc) (ho : df.opn = some lo) (hv : df.volume = some lv) :
    ∃ r, detectKlinePatterns df = Except.ok r := by
  rw [detectKlinePatterns]
  split_ifs
  · exact ⟨_, rfl⟩
  · refine bind_ok_ex (colE_ok hc "Close") (fun a => ?_)
    refine bind_ok_ex (colE_ok ho "Open") (fun b => ?_)
    refine bind_ok_ex (colE_ok hv "Volume") (fun c => ?_)
    exact ⟨_, rfl⟩

theorem analyzePriceVolume_ok (df : DF) {lc lv : List ℚ}
    (hc : df.close = some lc) (hv : df.volume = some lv) :
    ∃ r, analyzePriceVolume df = Except.ok r := by
  rw [analyzePriceVolume]
  split_ifs
  · exact ⟨_, rfl⟩
  · refine bind_ok_ex (colE_ok hv "Volume") (fun a => ?_)
    refine bind_ok_ex (colE_ok hc "Close") (fun b => ?_)
    exact ⟨_, rfl⟩

theorem detectMorphology_ok (df : DF) {lc lo lh ll lv : List ℚ}
    (hc : df.close = some lc) (hh : df.high = some lh) (hl : df.low = some ll)
    (hv : df.volume = some lv) :
    ∃ r, detectMorphology df = Except.ok r := by
  rw [detectMorphology]
  split_ifs
  · exact ⟨_, rfl⟩
  · have h1 : ∃ r, detectDoublePatterns df = Except.ok r := by
      rw [detectDoublePatterns]
      exact bind_ok_ex (colE_ok hc "Close") (fun a => ⟨_, rfl⟩)
    have h2 : ∃ r, detectHeadShoulders df = Except.ok r := by
      rw [detectHeadShoulders]
      refine bind_ok_ex (colE_ok hc "Close") (fun a => ?_)
      exact bind_ok_ex (colE_ok hv "Volume") (fun b => ⟨_, rfl⟩)
    have h3 : ∃ r, detectTriangle df = Except.ok r := by
      rw [detectTriangle]
      split_ifs
      · exact ⟨_, rfl⟩
      · refine bind_ok_ex (colE_ok hh "High") (fun a => ?_)
        refine bind_ok_ex (colE_ok hl "Low") (fun b => ?_)
        exact bind_ok_ex (colE_ok hv "Volume") (fun c => ⟨_, rfl⟩)
    refine bind_ok_ex h1 (fun r1 => ?_)
    refine bind_ok_ex h2 (fun r2 => ?_)
    refine bind_ok_ex h3 (fun r3 => ?_)
    exact ⟨_, rfl⟩

theorem triggerFactors_ok (df : DF)
    {lc lo lh ll lv lm20 lhist lk ld lobv ladx lpdi lmdi : List ℚ}
    (hc : df.close = some lc) (ho : df.opn = some lo) (hh : df.high = some lh)
    (hl : df.low = some ll) (hv : df.volume = some lv) (hm20 : df.ma20 = some lm20)
    (hhist : df.hist = some lhist) (hk : df.k = some lk) (hd : df.d = some ld)
    (hobv : df.obv = some lobv) (hadx : df.adx = some ladx)
    (hpdi : df.pdi = some lpdi) (hmdi : df.mdi = some lmdi) :
    ∃ r, triggerFactors df = Except.ok r := by
  rw [triggerFactors]
  have hf1 : ∃ r, triggerFactorMA df = Except.ok r := by
    rw [triggerFactorMA]
    exact bind_ok_ex (cellE_ok hc "Close" (-1)) (fun a => map_ok_ex (cellE_ok hm20 "MA20" (-1)))
  refine bind_ok_ex hf1 (fun f1 => ?_)
  dsimp only
  have hf4 : ∃ r, triggerFactorMACD df = Except.ok r := by
    rw [triggerFactorMACD]
    refine bind_ok_ex (colE_ok hhist "Hist") (fun a => ?_)
    exact map_ok_ex (detectDivergence_ok df df.macd 40 hl hh)
  refine bind_ok_ex hf4 (fun f4 => ?_)
  have hf5 : ∃ r, triggerFactorKD df = Except.ok r := by
    rw [triggerFactorKD]
    exact bind_ok_ex (cellE_ok hk "K" (-1)) (fun a => map_ok_ex (cellE_ok hd "D" (-1)))
  refine bind_ok_ex hf5 (fun f5 => ?_)
  have hf6 : ∃ r, triggerFactorOBV df = Except.ok r := by
    rw [triggerFactorOBV]
    refine bind_ok_ex ?_ (fun a => map_ok_ex (detectDivergence_ok df df.obv 40 hl hh))
    split_ifs
    · exact bind_ok_ex (cellE_ok hobv "OBV" (-1)) (fun a => map_ok_ex (cellE_ok hobv "OBV" (-3)))
    · exact ⟨_, rfl⟩
  refine bind_ok_ex hf6 (fun f6 => ?_)
  have hf7 : ∃ r, triggerFactorDMI df = Except.ok r := by
    rw [triggerFactorDMI]
    refine bind_ok_ex (cellE_ok hadx "ADX" (-1)) (fun a => ?_)
    split_ifs
    · exact bind_ok_ex (cellE_ok hpdi "+DI" (-1)) (fun b => map_ok_ex (cellE_ok hmdi "-DI" (-1)))
    · exact ⟨_, rfl⟩
  refine bind_ok_ex hf7 (fun f7 => ?_)
  refine bind_ok_ex (detectDivergence_ok df df.rsi 40 hl hh) (fun rsig => ?_)
  refine bind_ok_ex (detectKlinePatterns_ok df hc ho hv) (fun kl => ?_)
  dsimp only
  exact map_ok_ex (analyzePriceVolume_ok df hc hv)

/-- C8 amended: factors read with Series.get (BIAS, EFI, the TD counters)
default to 0 on an absent column and the pass continues; the weekly OBV
factor and morphology are exception-guarded; but whenever every
directly-indexed column is present the scorers return normally for any
frame - and, per the counterexample, an absent directly-indexed column
aborts the pass with a KeyError instead of defaulting. -/
theorem scorers_no_raise (df : DF)
    (lc lo lh ll lv lm20 lm60 lhist lk ld lobv ladx lpdi lmdi : List ℚ)
    (hc : df.close = some lc) (ho : df.opn = some lo) (hh : df.high = some lh)
    (hl : df.low = some ll) (hv : df.volume = some lv) (hm20 : df.ma20 = some lm20)
    (hm60 : df.ma60 = some lm60) (hhist : df.hist = some lhist) (hk : df.k = some lk)
    (hd : df.d = some ld) (hobv : df.obv = some lobv) (hadx : df.adx = some ladx)
    (hpdi : df.pdi = some lpdi) (hmdi : df.mdi = some lmdi) :
    (∃ r, calculateTrendScore df = Except.ok r) ∧
    (∀ a env t, ∃ r, (calculateTriggerScore a env df t).1 = Except.ok r) ∧
    (df.bias = none → triggerFactorBias df = (0, [])) ∧
    (df.efi = none → trendFactorEFI df = (-1, [Detail.efiBearW 0])) ∧
    (df.tdBuy = none → df.tdSell = none →
      tdSequentialBonus (cellD df.tdBuy (-1) 0) (cellD df.tdSell (-1) 0) = (0, [])) := by
  refine ⟨?_, ?_, ?_, ?_, ?_⟩
  · rw [calculateTrendScore]
    split_ifs
    · exact ⟨_, rfl⟩
    · have hf1 : ∃ r, trendFactorMA df = Except.ok r := by
        rw [trendFactorMA]
        refine bind_ok_ex (cellE_ok hc "Close" (-1)) (fun a => ?_)
        refine bind_ok_ex (cellE_ok hm20 "MA20" (-1)) (fun b => ?_)
        split_ifs
        · exact map_ok_ex (cellE_ok hm60 "MA60" (-1))
        · exact map_ok_ex (cellE_ok hm60 "MA60" (-1))
        · exact ⟨_, rfl⟩
      refine bind_ok_ex hf1 (fun f1 => ?_)
      have hf2 : ∃ r, trendFactorDMI df = Except.ok r := by
        rw [trendFactorDMI]
        refine bind_ok_ex (cellE_ok hadx "ADX" (-1)) (fun a => ?_)
        split_ifs
        · exact bind_ok_ex (cellE_ok hpdi "+DI" (-1))
            (fun b => map_ok_ex (cellE_ok hmdi "-DI" (-1)))
        · exact ⟨_, rfl⟩
      refine bind_ok_ex hf2 (fun f2 => ?_)
      dsimp only
      exact map_ok_ex (analyzePriceVolume_ok df hc hv)
  · intro a env t
    rw [calculateTriggerScore]
    split_ifs
    · exact ⟨_, rfl⟩
    · obtain ⟨r, hr⟩ := triggerFactors_ok df hc ho hh hl hv hm20 hhist hk hd hobv
        hadx hpdi hmdi
      rw [hr]
      exact ⟨_, rfl⟩
  · intro hb; rw [triggerFactorBias, hb]; norm_num [cellD]
  · intro he; rw [trendFactorEFI, he]; norm_num [cellD]
  · intro hb hs; rw [hb, hs]; norm_num [cellD, tdSequentialBonus]

/-! ## Claims about determinism and side effects of scoring (C9) -/

/-- An analyzer for a US ticker with no supplied chip data of either
kind: scoring it triggers the dynamic chip fetch. -/
def aAAPL : Analyzer := mkAnalyzer "AAPL" none none

theorem detectUSStock_AAPL : detectUSStock "AAPL" = true := by decide

theorem aAAPL_eq : aAAPL = ⟨"AAPL", true, none, none⟩ := by
  rw [aAAPL, mkAnalyzer, detectUSStock_AAPL]

/-- Two possible states of the external chip source: a very high and a
very low institutional ownership, everything else neutral. -/
def usd1 : USChipData := ⟨90, 0, 0, 0, 0, Sentiment.neutralS, 0, 0, RecKey.na, 0⟩

def usd2 : USChipData := ⟨10, 0, 0, 0, 0, Sentiment.neutralS, 0, 0, RecKey.na, 0⟩

/-- Evaluation of the trigger score on the flat 20-bar frame for the US
analyzer without supplied chip data, with the fetched bundle symbolic:
the result score and details depend on the fetched data, the analyzer
field self.us_chip_data is overwritten with it, and the external call
flag is set. -/
theorem dfT20_trigger_us (d : USChipData) :
    calculateTriggerScore aAAPL (some (some d, none)) (dfT20 0) 0 =
      (Except.ok (-2 + (analyzeUSChipBody d 0).1,
        Detail.maAboveD :: Detail.efiBearD :: Detail.macdGreen :: Detail.kdDead ::
          (analyzeUSChipBody d 0).2), some d, true) := by
  norm_num [calculateTriggerScore, dfT20, aAAPL_eq, triggerFactors,
    triggerFactorMA, triggerFactorBias, triggerFactorEFI, triggerFactorMACD,
    triggerFactorKD, triggerFactorOBV, triggerFactorDMI, rsiDelta, divDelta,
    detectDivergence, detectKlinePatterns, detectMorphology, analyzePriceVolume,
    analyzeChipFactors, analyzeUSChipFactors, tdSequentialBonus,
    cellE, cellD, colE, constCol,
    pyGetD_replicate_neg, pyGetD_append_last, lastK_replicate, listMean_replicate,
    rollMeanLast, List.zipWith_replicate, Except.bind, Except.map]

/-- C9 as stated is false for a US ticker without supplied chip data: the
trigger scoring performs an external chip fetch, stores the fetched bundle
into the analyzer (mutating self.us_chip_data from None), and two runs
over identical supplied inputs return different scores when the external
source answers differently. -/
theorem trigger_scoring_impure_counterexample :
    calculateTriggerScore aAAPL (some (some usd1, none)) (dfT20 0) 0 =
      (Except.ok (-(1/2), [Detail.maAboveD, Detail.efiBearD, Detail.macdGreen,
        Detail.kdDead, Detail.usInstVeryHigh]), some usd1, true) ∧
    calculateTriggerScore aAAPL (some (some usd2, none)) (dfT20 0) 0 =
      (Except.ok (-(5/2), [Detail.maAboveD, Detail.efiBearD, Detail.macdGreen,
        Detail.kdDead, Detail.usInstLow]), some usd2, true) ∧
    (calculateTriggerScore aAAPL (some (some usd1, none)) (dfT20 0) 0).1 ≠
      (calculateTriggerScore aAAPL (some (some usd2, none)) (dfT20 0) 0).1 ∧
    (calculateTriggerScore aAAPL (some (some usd1, none)) (dfT20 0) 0).2.1 ≠
      aAAPL.usChipData ∧
    (calculateTriggerScore aAAPL (some (some usd1, none)) (dfT20 0) 0).2.2 = true := by
  have h1 := dfT20_trigger_us usd1
  have h2 := dfT20_trigger_us usd2
  have c1 : Sentiment.neutralS ≠ Sentiment.bullish := by decide
  have c2 : Sentiment.neutralS ≠ Sentiment.bearish := by decide
  have c3 : RecKey.na ≠ RecKey.sell := by decide
  have c4 : RecKey.na ≠ RecKey.strongSell := by decide
  have b1 : analyzeUSChipBody usd1 0 = (3/2, [Detail.usInstVeryHigh]) := by
    norm_num [analyzeUSChipBody, weightMultiplier, usd1, c1, c2, c3, c4]
  have b2 : analyzeUSChipBody usd2 0 = (-(1/2), [Detail.usInstLow]) := by
    norm_num [analyzeUSChipBody, weightMultiplier, usd2, c1, c2, c3, c4]
  rw [b1] at h1
  rw [b2] at h2
  norm_num at h1 h2
  refine ⟨h1, h2, ?_, ?_, ?_⟩
  · rw [h1, h2]; norm_num
  · rw [h1, aAAPL_eq]; simp
  · rw [h1]

/-- C9 amended: the trend scorer is a pure function of the weekly frame,
and the trigger scorer is deterministic and effect-free whenever the
ticker is not a US stock or chip data was supplied: the result does not
depend on the external environment, self.us_chip_data is unchanged and no
external call happens.  (Only a US ticker with us_chip_data = None
fetches externally, as the counterexample shows.) -/
theorem scoring_deterministic (a : Analyzer) (df : DF) (t : ℚ)
    (h : a.isUSStock = false ∨ a.usChipData.isSome) :
    ∀ env env' : USChipFetch,
      calculateTriggerScore a env df t = calculateTriggerScore a env' df t ∧
      (calculateTriggerScore a env df t).2.1 = a.usChipData ∧
      (calculateTriggerScore a env df t).2.2 = false := by
  have hchip : ∀ e : USChipFetch,
      analyzeChipFactors a e df t = analyzeChipFactors a none df t ∧
      (analyzeChipFactors a e df t).2.1 = a.usChipData ∧
      (analyzeChipFactors a e df t).2.2 = false := by
    intro e
    rcases h with h | h
    · simp only [analyzeChipFactors, h, Bool.false_eq_true, if_false]
      cases hcd : a.chipData <;> simp
    · obtain ⟨d, hd⟩ := Option.isSome_iff_exists.1 h
      by_cases hus : a.isUSStock = true
      · simp [analyzeChipFactors, hus, analyzeUSChipFactors, hd]
      · have hus2 : a.isUSStock = false := by simpa using hus
        simp only [analyzeChipFactors, hus2, Bool.false_eq_true, if_false]
        cases hcd : a.chipData <;> simp
  intro env env'
  rw [calculateTriggerScore, calculateTriggerScore]
  split_ifs
  · exact ⟨rfl, rfl, rfl⟩
  · cases htf : triggerFactors df with
    | error e => exact ⟨rfl, rfl, rfl⟩
    | ok r =>
      obtain ⟨he1, he2, he3⟩ := hchip env
      obtain ⟨hf1, hf2, hf3⟩ := hchip env'
      refine ⟨?_, ?_, he3⟩
      · rw [he1, hf1]
      · exact he2

/-- Witness for the amended C9 theorem: the domestic analyzer on the flat
20-bar frame gives identical results under two different environments,
with no state change and no external call. -/
theorem scoring_deterministic_witness :
    calculateTriggerScore a2330 (some (some usd1, none)) (dfT20 0) 0 =
      calculateTriggerScore a2330 none (dfT20 0) 0 ∧
    (calculateTriggerScore a2330 (some (some usd1, none)) (dfT20 0) 0).2.1 =
      a2330.usChipData ∧
    (calculateTriggerScore a2330 (some (some usd1, none)) (dfT20 0) 0).2.2 = false := by
  have := scoring_deterministic a2330 (dfT20 0) 0
    (Or.inl (by rw [a2330_eq])) (some (some usd1, none)) none
  exact this

/-- Witness for the amended C8 theorem at the flat 20-bar frame. -/
theorem scorers_no_raise_witness :
    (∃ r, calculateTrendScore (dfT20 0) = Except.ok r) ∧
    (∀ a env t, ∃ r, (calculateTriggerScore a env (dfT20 0) t).1 = Except.ok r) ∧
    ((dfT20 0).bias = none → triggerFactorBias (dfT20 0) = (0, [])) ∧
    ((dfT20 0).efi = none → trendFactorEFI (dfT20 0) = (-1, [Detail.efiBearW 0])) ∧
    ((dfT20 0).tdBuy = none → (dfT20 0).tdSell = none →
      tdSequentialBonus (cellD (dfT20 0).tdBuy (-1) 0)
        (cellD (dfT20 0).tdSell (-1) 0) = (0, [])) :=
  scorers_no_raise (dfT20 0) _ _ _ _ _ _ _ _ _ _ _ _ _ _
    rfl rfl rfl rfl rfl rfl rfl rfl rfl rfl rfl rfl rfl rfl

/-! ## Claims about the action plan: risk-reward (C5) and non-actionable zeroing (C6) -/

theorem listMinD_replicate (j : ℕ) (v : ℚ) : listMinD (List.replicate j v) v = v := by
  induction j with
  | zero => rfl
  | succ m ih =>
    rw [List.replicate_succ, listMinD, List.foldl_cons, ite_self]
    exact ih

theorem listMaxD_replicate (j : ℕ) (v : ℚ) : listMaxD (List.replicate j v) v = v := by
  induction j with
  | zero => rfl
  | succ m ih =>
    rw [List.replicate_succ, listMaxD, List.foldl_cons, ite_self]
    exact ih

theorem lastKMin_replicate (k : ℕ) (v : ℚ) (h : k ≠ 0) :
    lastKMin (List.replicate k v) k = v := by
  obtain ⟨m, rfl⟩ := Nat.exists_eq_succ_of_ne_zero h
  rw [lastKMin, lastK_replicate]
  simp only [min_self, List.replicate_succ]
  exact listMinD_replicate m v

theorem lastKMax_replicate (k : ℕ) (v : ℚ) (h : k ≠ 0) :
    lastKMax (List.replicate k v) k = v := by
  obtain ⟨m, rfl⟩ := Nat.exists_eq_succ_of_ne_zero h
  rw [lastKMax, lastK_replicate]
  simp only [min_self, List.replicate_succ]
  exact listMaxD_replicate m v

theorem rrOf_eq (eb sl tp : ℚ) :
    rrOf eb sl tp = if eb > 0 ∧ sl > 0 ∧ eb - sl > 0 then (tp - eb) / (eb - sl) else 0 := by
  rw [rrOf]
  split_ifs <;> first | rfl | tauto

theorem bind_ok_eq {α β : Type} (a : α) (f : α → Except String β) :
    Except.bind (Except.ok a) f = f a := rfl

theorem bind_error_eq {α β : Type} (e : String) (f : α → Except String β) :
    Except.bind (Except.error e) f = Except.error e := rfl

theorem map_ok_eq {α β : Type} (g : α → β) (a : α) :
    Except.map g (Except.ok a : Except String α) = Except.ok (g a) := rfl

theorem map_error_eq {α β : Type} (g : α → β) (e : String) :
    Except.map g (Except.error e : Except String α) = (Except.error e : Except String β) := rfl

/-- Case analysis of every plan record that _generate_action_plan can
return: on the non-actionable early return the entry band, the target and
the risk-reward are the literal zeros of the returned dict, and on the
actionable path the risk-reward is the formula exactly when the entry
basis, the recommended stop and the denominator are all positive. -/
theorem generateActionPlan_cases (sp : Option StrategyParams) (df : DF) (sc : Scenario)
    (ts : ℚ) (plan : PlanCore)
    (h : generateActionPlan sp df sc ts = Except.ok (some plan)) :
    (plan.isActionable = false → plan.recEntryLow = 0 ∧ plan.recEntryHigh = 0 ∧
      plan.recTpPrice = 0 ∧ plan.rrRatio = 0) ∧
    (plan.rrRatio =
      if plan.isActionable = true ∧ plan.entryBasis > 0 ∧ plan.recSlPrice > 0 ∧
          plan.entryBasis - plan.recSlPrice > 0 then
        (plan.recTpPrice - plan.entryBasis) / (plan.entryBasis - plan.recSlPrice)
      else 0) := by
  delta generateActionPlan at h
  split at h
  · simp at h
  · cases hc : colE df.close "Close" with
    | error e => rw [hc, bind_error_eq] at h; exact Except.noConfusion h
    | ok closes =>
      rw [hc, bind_ok_eq] at h
      lift_lets at h
      extract_lets at h
      cases hlo : colE df.low "Low" with
      | error e => rw [hlo, bind_error_eq] at h; exact Except.noConfusion h
      | ok lows =>
        rw [hlo, bind_ok_eq] at h
        lift_lets at h
        extract_lets at h
        split at h
        · simp only [Except.ok.injEq, Option.some.injEq] at h
          subst h
          exact ⟨fun _ => ⟨rfl, rfl, rfl, rfl⟩, by simp⟩
        · cases hh : colE df.high "High" with
          | error e => rw [hh, map_error_eq] at h; exact Except.noConfusion h
          | ok highs =>
            rw [hh, map_ok_eq] at h
            lift_lets at h
            extract_lets at h
            simp only [Except.ok.injEq, Option.some.injEq] at h
            subst h
            refine ⟨fun hf => absurd hf (by simp), ?_⟩
            simp [rrOf_eq]

/-- C5 amended: the risk-reward of every returned plan is the formula
(target - entry) / (entry - stop) exactly when the plan is actionable and
the entry basis, the recommended stop and the denominator are all
positive; in every other case (including a positive denominator with a
nonpositive stop) it is 0. -/
theorem rr_ratio_amended (sp : Option StrategyParams) (df : DF) (sc : Scenario)
    (ts : ℚ) (plan : PlanCore)
    (h : generateActionPlan sp df sc ts = Except.ok (some plan)) :
    plan.rrRatio =
      if plan.isActionable = true ∧ plan.entryBasis > 0 ∧ plan.recSlPrice > 0 ∧
          plan.entryBasis - plan.recSlPrice > 0 then
        (plan.recTpPrice - plan.entryBasis) / (plan.entryBasis - plan.recSlPrice)
      else 0 :=
  (generateActionPlan_cases sp df sc ts plan h).2

/-- C6: a plan returned with is_actionable false has entry band and target
zeroed (the stop fields keep their computed values). -/
theorem nonactionable_zeroed (sp : Option StrategyParams) (df : DF) (sc : Scenario)
    (ts : ℚ) (plan : PlanCore)
    (h : generateActionPlan sp df sc ts = Except.ok (some plan))
    (hna : plan.isActionable = false) :
    plan.recEntryLow = 0 ∧ plan.recEntryHigh = 0 ∧ plan.recTpPrice = 0 := by
  obtain ⟨h1, h2, h3, _⟩ := (generateActionPlan_cases sp df sc ts plan h).1 hna
  exact ⟨h1, h2, h3⟩

/-- A 20-bar frame whose last bar closes at 10 with a large ATR (6), so
that the recommended stop 10 - 2 * 6 = -2 is negative while the
denominator 10 - (-2) = 12 is positive. -/
def dfC5 : DF :=
  { n := 20, dates := List.range 20,
    opn := constCol 20 10, high := constCol 20 12, low := constCol 20 8,
    close := constCol 20 10, volume := constCol 20 100,
    ma5 := constCol 20 10, ma10 := constCol 20 10, ma20 := constCol 20 9,
    ma60 := constCol 20 9, ma120 := constCol 20 9, ma240 := constCol 20 9,
    bias := constCol 20 0, efi := constCol 20 0, hist := constCol 20 0,
    macd := constCol 20 0, k := constCol 20 50, d := constCol 20 50,
    obv := constCol 20 0, adx := constCol 20 20, pdi := constCol 20 0,
    mdi := constCol 20 0, rsi := constCol 20 50, bbLo := constCol 20 0,
    bbUp := constCol 20 0, atr := constCol 20 6,
    tdBuy := constCol 20 0, tdSell := constCol 20 0, pattern := none }

/-- The plan _generate_action_plan returns on dfC5 under scenario A. -/
def planC5 : PlanCore :=
  ⟨10, StratText.activeEntry, true, 10, 10, EntryDesc.active5, some RecSL.atrStop, -2,
   2059/125, 0,
   [⟨TPMethod.prevHigh, 12, false⟩, ⟨TPMethod.nMeasure, 14, false⟩,
    ⟨TPMethod.fib1618, 2059/125, true⟩],
   [⟨SLMethod.maStop, 9, false, -10⟩, ⟨SLMethod.keyCandle, 8, false, -20⟩,
    ⟨SLMethod.swingLow, 8, false, -20⟩],
   -2, 9, 8, 8, 10, "A"⟩

set_option maxRecDepth 4000 in
theorem dfC5_plan :
    generateActionPlan none dfC5 (determineScenario 3 []) 0 = Except.ok (some planC5) := by
  have hf1 : (decide (TPMethod.prevHigh = TPMethod.fib1618)) = false := rfl
  have hf2 : (decide (TPMethod.nMeasure = TPMethod.fib1618)) = false := rfl
  have hf3 : (decide (TPMethod.fib1618 = TPMethod.fib1618)) = true := rfl
  have hd1 : (decide (some TPMethod.fib1618 = some TPMethod.prevHigh)) = false := rfl
  have hd2 : (decide (some TPMethod.fib1618 = some TPMethod.nMeasure)) = false := rfl
  have hd3 : (decide (some TPMethod.fib1618 = some TPMethod.fib1618)) = true := rfl
  have hg1 : (decide (TPMethod.fib1618 = TPMethod.prevHigh)) = false := rfl
  have hg2 : (decide (TPMethod.fib1618 = TPMethod.nMeasure)) = false := rfl
  have hr1 : Int.fract ((-1000 : ℚ)) = 0 := by rw [Int.fract]; norm_num
  have hr2 : Int.fract ((-2000 : ℚ)) = 0 := by rw [Int.fract]; norm_num
  have hl1 : ([(⟨TPMethod.prevHigh, 12, false⟩ : TPItem), ⟨TPMethod.nMeasure, 14, false⟩,
      ⟨TPMethod.fib1618, 2059/125, true⟩] = ([] : List TPItem)) = False :=
    eq_false (List.cons_ne_nil _ _)
  norm_num [generateActionPlan, dfC5, planC5, constCol, colE, cellD, Except.bind,
    Except.map, pyGetD_replicate_neg, lastKMin_replicate, lastKMax_replicate,
    determineScenario, entryDecision, scenarioIntent, buildSlList, stableSortDescBy,
    insertDescBy, stableSortAscBy, insertAscBy, pyRound2, roundHalfEven, rrOf,
    List.filter, List.find?, List.any, List.foldl, hf1, hf2, hf3, hd1, hd2,
    hd3, hg1, hg2, hr1, hr2, hl1]

/-- C5 as stated is false: on dfC5 the plan is actionable, the denominator
entry - stop is 12 > 0, and the claimed formula gives 809/1500, yet the
returned risk-reward is 0, because the code also demands a positive
recommended stop (here -2) before computing the ratio. -/
theorem rr_counterexample :
    generateActionPlan none dfC5 (determineScenario 3 []) 0 = Except.ok (some planC5) ∧
    planC5.isActionable = true ∧
    planC5.entryBasis - planC5.recSlPrice > 0 ∧
    planC5.rrRatio = 0 ∧
    (planC5.recTpPrice - planC5.entryBasis) / (planC5.entryBasis - planC5.recSlPrice) ≠ 0 := by
  refine ⟨dfC5_plan, rfl, by norm_num [planC5], rfl, by norm_num [planC5]⟩

/-- Witness for the amended C5 theorem at the concrete frame dfC5. -/
theorem rr_ratio_amended_witness :
    planC5.rrRatio =
      if planC5.isActionable = true ∧ planC5.entryBasis > 0 ∧ planC5.recSlPrice > 0 ∧
          planC5.entryBasis - planC5.recSlPrice > 0 then
        (planC5.recTpPrice - planC5.entryBasis) / (planC5.entryBasis - planC5.recSlPrice)
      else 0 :=
  rr_ratio_amended none dfC5 (determineScenario 3 []) 0 planC5 dfC5_plan

/-- The plan _generate_action_plan returns on the flat frame under
scenario D (trend score -3): not actionable, entry band and target zeroed,
stop-candidate list still fully populated. -/
def planD6 : PlanCore :=
  ⟨10, StratText.standAside, false, 0, 0, EntryDesc.emptyDesc, none, 0, 0, 0, [],
   [⟨SLMethod.keyCandle, 10, false, 0⟩, ⟨SLMethod.swingLow, 10, false, 0⟩,
    ⟨SLMethod.atrStop, 9, false, -10⟩, ⟨SLMethod.maStop, 9, false, -10⟩],
   9, 9, 10, 10, 10, "D"⟩

set_option maxRecDepth 4000 in
theorem dfD6_plan :
    generateActionPlan none (dfT20 0) (determineScenario (-3) []) 0 =
      Except.ok (some planD6) := by
  have hr1 : Int.fract ((-1000 : ℚ)) = 0 := by rw [Int.fract]; norm_num
  have hr2 : Int.fract ((0 : ℚ)) = 0 := by rw [Int.fract]; norm_num
  have hs1 : (("D" : String) = "A") = False := eq_false (by decide)
  have hs2 : (("D" : String) = "B") = False := eq_false (by decide)
  have hs3 : (("D" : String) = "C") = False := eq_false (by decide)
  norm_num [generateActionPlan, dfT20, planD6, constCol, colE, cellD, Except.bind,
    Except.map, pyGetD_replicate_neg, lastKMin_replicate, lastKMax_replicate,
    determineScenario, entryDecision, scenarioIntent, buildSlList, stableSortDescBy,
    insertDescBy, stableSortAscBy, insertAscBy, pyRound2, roundHalfEven, rrOf,
    List.filter, List.foldl, hr1, hr2, hs1, hs2, hs3]

/-- Witness for the C6 theorem at the flat frame under scenario D: the
returned plan is not actionable, its entry band and target are zeroed, and
its stop-candidate list is still populated. -/
theorem nonactionable_zeroed_witness :
    (planD6.recEntryLow = 0 ∧ planD6.recEntryHigh = 0 ∧ planD6.recTpPrice = 0) ∧
    planD6.isActionable = false ∧ planD6.slList ≠ [] ∧ planD6.slLow = 10 :=
  ⟨nonactionable_zeroed none (dfT20 0) (determineScenario (-3) []) 0 planD6 dfD6_plan rfl,
   rfl, List.cons_ne_nil _ _, rfl⟩

/-! ## Claims about the divergence detector (C4) -/

theorem classifyTop_not_bull (highs ind : List ℚ) :
    classifyTop highs ind ≠ some DivSignal.bullStrong := by
  intro h
  cases ht : topPivotIdx highs ind with
  | none => simp only [classifyTop, ht] at h; exact Option.noConfusion h
  | some pp =>
    simp only [classifyTop, ht] at h
    split_ifs at h <;> simp_all

theorem classifyBottom_not_bear (lows ind : List ℚ) :
    classifyBottom lows ind ≠ some DivSignal.bearStrong := by
  intro h
  cases hb : bottomPivotIdx lows ind with
  | none => simp only [classifyBottom, hb] at h; exact Option.noConfusion h
  | some pp =>
    simp only [classifyBottom, hb] at h
    split_ifs at h <;> simp_all

/-- A strong bullish classification forces both thresholds: the price drop
between the two most recent bottom pivots exceeds 3 percent and the
indicator rise between the matched indicator pivots exceeds 10 percent
(so in particular the first indicator value is nonzero, by the
zero-denominator guard). -/
theorem classifyBottom_strong (lows ind : List ℚ)
    (h : classifyBottom lows ind = some DivSignal.bullStrong) :
    ∃ pp, bottomPivotIdx lows ind = some pp ∧
      lows.getD pp.p2 0 < lows.getD pp.p1 0 ∧
      ind.getD pp.i2 0 > ind.getD pp.i1 0 ∧
      (lows.getD pp.p1 0 - lows.getD pp.p2 0) / lows.getD pp.p1 0 * 100 > 3 ∧
      ind.getD pp.i1 0 ≠ 0 ∧
      (ind.getD pp.i2 0 - ind.getD pp.i1 0) / |ind.getD pp.i1 0| * 100 > 10 := by
  cases hb : bottomPivotIdx lows ind with
  | none => simp only [classifyBottom, hb] at h; exact Option.noConfusion h
  | some pp =>
    simp only [classifyBottom, hb] at h
    by_cases h1 : lows.getD pp.p2 0 < lows.getD pp.p1 0 ∧ ind.getD pp.i2 0 > ind.getD pp.i1 0
    · rw [if_pos h1] at h
      by_cases hv : ind.getD pp.i1 0 ≠ 0
      · rw [if_pos hv] at h
        by_cases h3 : (lows.getD pp.p1 0 - lows.getD pp.p2 0) / lows.getD pp.p1 0 * 100 > 3 ∧
            (ind.getD pp.i2 0 - ind.getD pp.i1 0) / |ind.getD pp.i1 0| * 100 > 10
        · exact ⟨pp, rfl, h1.1, h1.2, h3.1, hv, h3.2⟩
        · rw [if_neg h3] at h
          exact absurd h (by simp)
      · rw [if_neg hv] at h
        rw [if_neg (fun hc => absurd hc.2 (by norm_num))] at h
        exact absurd h (by simp)
    · rw [if_neg h1] at h
      split_ifs at h
      all_goals exact absurd h (by simp)

/-- The mirror statement for a strong bearish classification. -/
theorem classifyTop_strong (highs ind : List ℚ)
    (h : classifyTop highs ind = some DivSignal.bearStrong) :
    ∃ pp, topPivotIdx highs ind = some pp ∧
      highs.getD pp.p2 0 > highs.getD pp.p1 0 ∧
      ind.getD pp.i2 0 < ind.getD pp.i1 0 ∧
      (highs.getD pp.p2 0 - highs.getD pp.p1 0) / highs.getD pp.p1 0 * 100 > 3 ∧
      ind.getD pp.i1 0 ≠ 0 ∧
      (ind.getD pp.i1 0 - ind.getD pp.i2 0) / |ind.getD pp.i1 0| * 100 > 10 := by
  cases ht : topPivotIdx highs ind with
  | none => simp only [classifyTop, ht] at h; exact Option.noConfusion h
  | some pp =>
    simp only [classifyTop, ht] at h
    by_cases h1 : highs.getD pp.p2 0 > highs.getD pp.p1 0 ∧ ind.getD pp.i2 0 < ind.getD pp.i1 0
    · rw [if_pos h1] at h
      by_cases hv : ind.getD pp.i1 0 ≠ 0
      · rw [if_pos hv] at h
        by_cases h3 : (highs.getD pp.p2 0 - highs.getD pp.p1 0) / highs.getD pp.p1 0 * 100 > 3 ∧
            (ind.getD pp.i1 0 - ind.getD pp.i2 0) / |ind.getD pp.i1 0| * 100 > 10
        · exact ⟨pp, rfl, h1.1, h1.2, h3.1, hv, h3.2⟩
        · rw [if_neg h3] at h
          exact absurd h (by simp)
      · rw [if_neg hv] at h
        rw [if_neg (fun hc => absurd hc.2 (by norm_num))] at h
        exact absurd h (by simp)
    · rw [if_neg h1] at h
      split_ifs at h
      all_goals exact absurd h (by simp)

theorem bottomPivotIdx_insufficient (lows ind : List ℚ)
    (h : (pivotIdxs true 3 lows).length < 2 ∨ (pivotIdxs true 3 ind).length < 2) :
    bottomPivotIdx lows ind = none := by
  rw [bottomPivotIdx, if_neg]
  omega

theorem topPivotIdx_insufficient (highs ind : List ℚ)
    (h : (pivotIdxs false 3 highs).length < 2 ∨ (pivotIdxs false 3 ind).length < 2) :
    topPivotIdx highs ind = none := by
  rw [topPivotIdx, if_neg]
  omega

theorem classifyBottom_of_none (lows ind : List ℚ) (h : bottomPivotIdx lows ind = none) :
    classifyBottom lows ind = none := by
  simp only [classifyBottom, h]

theorem classifyTop_of_none (highs ind : List ℚ) (h : topPivotIdx highs ind = none) :
    classifyTop highs ind = none := by
  simp only [classifyTop, h]

/-- C4: _detect_divergence returns a strong classification only when the
two-pivot price move exceeds 3 percent and the matched indicator move
exceeds 10 percent (relative, with the zero-denominator guard), and when
both the bottom axis and the top axis have fewer than two price pivots or
fewer than two indicator pivots it returns the neutral result. -/
theorem divergence_strong_thresholds (df : DF) (indCol : Option (List ℚ)) (w : ℕ)
    (ll lh : List ℚ) (hl : df.low = some ll) (hh : df.high = some lh) :
    (detectDivergence df indCol w = Except.ok (some DivSignal.bullStrong) →
      ∃ pp, bottomPivotIdx (lastK ll w) (lastK (indCol.getD []) w) = some pp ∧
        (lastK ll w).getD pp.p2 0 < (lastK ll w).getD pp.p1 0 ∧
        (lastK (indCol.getD []) w).getD pp.i2 0 > (lastK (indCol.getD []) w).getD pp.i1 0 ∧
        ((lastK ll w).getD pp.p1 0 - (lastK ll w).getD pp.p2 0) /
          (lastK ll w).getD pp.p1 0 * 100 > 3 ∧
        (lastK (indCol.getD []) w).getD pp.i1 0 ≠ 0 ∧
        ((lastK (indCol.getD []) w).getD pp.i2 0 - (lastK (indCol.getD []) w).getD pp.i1 0) /
          |(lastK (indCol.getD []) w).getD pp.i1 0| * 100 > 10) ∧
    (detectDivergence df indCol w = Except.ok (some DivSignal.bearStrong) →
      ∃ pp, topPivotIdx (lastK lh w) (lastK (indCol.getD []) w) = some pp ∧
        (lastK lh w).getD pp.p2 0 > (lastK lh w).getD pp.p1 0 ∧
        (lastK (indCol.getD []) w).getD pp.i2 0 < (lastK (indCol.getD []) w).getD pp.i1 0 ∧
        ((lastK lh w).getD pp.p2 0 - (lastK lh w).getD pp.p1 0) /
          (lastK lh w).getD pp.p1 0 * 100 > 3 ∧
        (lastK (indCol.getD []) w).getD pp.i1 0 ≠ 0 ∧
        ((lastK (indCol.getD []) w).getD pp.i1 0 - (lastK (indCol.getD []) w).getD pp.i2 0) /
          |(lastK (indCol.getD []) w).getD pp.i1 0| * 100 > 10) ∧
    (((pivotIdxs true 3 (lastK ll w)).length < 2 ∨
        (pivotIdxs true 3 (lastK (indCol.getD []) w)).length < 2) →
      ((pivotIdxs false 3 (lastK lh w)).length < 2 ∨
        (pivotIdxs false 3 (lastK (indCol.getD []) w)).length < 2) →
      detectDivergence df indCol w = Except.ok none) := by
  by_cases hg : df.n < w ∨ indCol.isNone
  · have hd : detectDivergence df indCol w = Except.ok none := by
      rw [detectDivergence, if_pos hg]
    refine ⟨fun hcon => ?_, fun hcon => ?_, fun _ _ => hd⟩
    · rw [hd] at hcon; simp at hcon
    · rw [hd] at hcon; simp at hcon
  · have hd : detectDivergence df indCol w =
        Except.ok (match classifyBottom (lastK ll w) (lastK (indCol.getD []) w) with
                   | some r => some r
                   | none => classifyTop (lastK lh w) (lastK (indCol.getD []) w)) := by
      rw [detectDivergence, if_neg hg, hl, hh]
      rfl
    refine ⟨fun hcon => ?_, fun hcon => ?_, fun hb ht => ?_⟩
    · rw [hd] at hcon
      simp only [Except.ok.injEq] at hcon
      cases hcb : classifyBottom (lastK ll w) (lastK (indCol.getD []) w) with
      | none =>
        rw [hcb] at hcon
        exact absurd hcon (classifyTop_not_bull _ _)
      | some r =>
        rw [hcb] at hcon
        simp only [Option.some.injEq] at hcon
        subst hcon
        exact classifyBottom_strong _ _ hcb
    · rw [hd] at hcon
      simp only [Except.ok.injEq] at hcon
      cases hcb : classifyBottom (lastK ll w) (lastK (indCol.getD []) w) with
      | none =>
        rw [hcb] at hcon
        exact classifyTop_strong _ _ hcon
      | some r =>
        rw [hcb] at hcon
        simp only [Option.some.injEq] at hcon
        subst hcon
        exact absurd hcb (classifyBottom_not_bear _ _)
    · rw [hd]
      rw [classifyBottom_of_none _ _ (bottomPivotIdx_insufficient _ _ hb),
        classifyTop_of_none _ _ (topPivotIdx_insufficient _ _ ht)]

/-- A nine-bar window with price lows pivoting at indices 1 and 5 (values
5 then 4: a 20 percent drop) while the indicator pivots at the same
indices rise from 2 to 3 (a 50 percent rise): a strong bullish
divergence. -/
def lowsD : List ℚ := [10, 5, 10, 10, 10, 4, 10, 10, 10]

def indD : List ℚ := [10, 2, 10, 10, 10, 3, 10, 10, 10]

def dfDiv : DF :=
  { n := 9, dates := List.range 9, opn := none, high := constCol 9 10,
    low := some lowsD, close := none, volume := none, ma5 := none, ma10 := none,
    ma20 := none, ma60 := none, ma120 := none, ma240 := none, bias := none,
    efi := none, hist := none, macd := none, k := none, d := none, obv := none,
    adx := none, pdi := none, mdi := none, rsi := none, bbLo := none, bbUp := none,
    atr := none, tdBuy := none, tdSell := none, pattern := none }

theorem pivots_lowsD : pivotIdxs true 3 lowsD = [1, 5] := by
  have hr9 : List.range 9 = [0, 1, 2, 3, 4, 5, 6, 7, 8] := rfl
  have hr3 : List.range 3 = [0, 1, 2] := rfl
  have ht0 : Int.toNat 0 = 0 := rfl
  have ht1 : Int.toNat 1 = 1 := rfl
  have ht2 : Int.toNat 2 = 2 := rfl
  have ht3 : Int.toNat 3 = 3 := rfl
  have ht4 : Int.toNat 4 = 4 := rfl
  have ht5 : Int.toNat 5 = 5 := rfl
  have ht6 : Int.toNat 6 = 6 := rfl
  have ht7 : Int.toNat 7 = 7 := rfl
  have ht8 : Int.toNat 8 = 8 := rfl
  norm_num [pivotIdxs, isPivot, clipGet, lowsD, hr9, hr3, List.filter, List.all,
    ht0, ht1, ht2, ht3, ht4, ht5, ht6, ht7, ht8]

theorem pivots_indD : pivotIdxs true 3 indD = [1, 5] := by
  have hr9 : List.range 9 = [0, 1, 2, 3, 4, 5, 6, 7, 8] := rfl
  have hr3 : List.range 3 = [0, 1, 2] := rfl
  have ht0 : Int.toNat 0 = 0 := rfl
  have ht1 : Int.toNat 1 = 1 := rfl
  have ht2 : Int.toNat 2 = 2 := rfl
  have ht3 : Int.toNat 3 = 3 := rfl
  have ht4 : Int.toNat 4 = 4 := rfl
  have ht5 : Int.toNat 5 = 5 := rfl
  have ht6 : Int.toNat 6 = 6 := rfl
  have ht7 : Int.toNat 7 = 7 := rfl
  have ht8 : Int.toNat 8 = 8 := rfl
  norm_num [pivotIdxs, isPivot, clipGet, indD, hr9, hr3, List.filter, List.all,
    ht0, ht1, ht2, ht3, ht4, ht5, ht6, ht7, ht8]

theorem bottom_pivots_div : bottomPivotIdx lowsD indD = some ⟨1, 5, 1, 5⟩ := by
  have hne1 : (([1] : List ℕ) = []) = False := eq_false (List.cons_ne_nil _ _)
  have hne5 : (([5] : List ℕ) = []) = False := eq_false (List.cons_ne_nil _ _)
  norm_num [bottomPivotIdx, pivots_lowsD, pivots_indD, pyGetD, List.filter,
    hne1, hne5]

theorem classify_bottom_div : classifyBottom lowsD indD = some DivSignal.bullStrong := by
  rw [classifyBottom, bottom_pivots_div]
  norm_num [lowsD, indD]

theorem dfDiv_eval :
    detectDivergence dfDiv (some indD) 9 = Except.ok (some DivSignal.bullStrong) := by
  have h9l : lastK lowsD 9 = lowsD := rfl
  have h9i : lastK indD 9 = indD := rfl
  norm_num [detectDivergence, dfDiv, colE, Except.bind, h9l, h9i, constCol,
    classify_bottom_div]

/-- Witness for the C4 theorem at the nine-bar frame dfDiv: the detector
reports a strong bullish divergence and the two-pivot thresholds hold. -/
theorem divergence_strong_thresholds_witness :
    detectDivergence dfDiv (some indD) 9 = Except.ok (some DivSignal.bullStrong) ∧
    (∃ pp, bottomPivotIdx (lastK lowsD 9) (lastK indD 9) = some pp ∧
      (lastK lowsD 9).getD pp.p2 0 < (lastK lowsD 9).getD pp.p1 0 ∧
      (lastK indD 9).getD pp.i2 0 > (lastK indD 9).getD pp.i1 0 ∧
      ((lastK lowsD 9).getD pp.p1 0 - (lastK lowsD 9).getD pp.p2 0) /
        (lastK lowsD 9).getD pp.p1 0 * 100 > 3 ∧
      (lastK indD 9).getD pp.i1 0 ≠ 0 ∧
      ((lastK indD 9).getD pp.i2 0 - (lastK indD 9).getD pp.i1 0) /
        |(lastK indD 9).getD pp.i1 0| * 100 > 10) :=
  ⟨dfDiv_eval,
   (divergence_strong_thresholds dfDiv (some indD) 9 lowsD (List.replicate 9 10)
     rfl rfl).1 dfDiv_eval⟩

end SA
